import Mathlib

set_option maxRecDepth 16384

/-!
Verification of the swiftparser-oss banking-message parsing library.

The JavaScript sources are shallowly embedded: every parser is a pure
function from strings (modelled as `List Char` under Lean `String`s) to an
`Except` of an error and a result record.  JavaScript numbers produced by
`parseFloat` are modelled by `JSNum` (`nan`, signed infinity, or an exact
rational); `Date.UTC`/`toISOString` arithmetic is modelled by explicit
civil-calendar normalization.  Fields of records whose values are
nondeterministic in the source (uuid correlation ids, wall-clock
timestamps, elapsed-time metadata) are omitted from the embedded records.
-/

namespace JSStr

/-- ASCII decimal digit test (used for the `\d` regex class). -/
def isDigit (c : Char) : Bool := 48 ≤ c.toNat && c.toNat ≤ 57

/-- ASCII upper-case letter test (used for the `[A-Z]` regex class). -/
def isUpper (c : Char) : Bool := 65 ≤ c.toNat && c.toNat ≤ 90

/-- JavaScript whitespace as relevant to `String.prototype.trim` on the
ASCII payloads handled here. -/
def isWS (c : Char) : Bool :=
  c = ' ' || c = '\t' || c = '\n' || c = '\r' || c.toNat = 11 || c.toNat = 12

/-- Does `hay` start with `needle`? -/
def startsWithL : List Char → List Char → Bool
  | [], _ => true
  | _ :: _, [] => false
  | n :: ns, h :: hs => n = h && startsWithL ns hs

/-- Does `hay` contain `needle` as a contiguous substring
(JavaScript `String.prototype.includes`)? -/
def containsL (needle : List Char) : List Char → Bool
  | [] => startsWithL needle []
  | c :: rest => startsWithL needle (c :: rest) || containsL needle rest

/-- The suffix of `hay` after the first occurrence of `needle`,
`none` when `needle` does not occur. -/
def afterFirst (needle : List Char) : List Char → Option (List Char)
  | [] => if startsWithL needle [] then some [] else none
  | c :: rest =>
    if startsWithL needle (c :: rest) then some ((c :: rest).drop needle.length)
    else afterFirst needle rest

/-- The prefix of the list strictly before the first occurrence of the
character `sep`; `none` when `sep` does not occur. -/
def upToChar (sep : Char) : List Char → Option (List Char)
  | [] => none
  | c :: rest =>
    if c = sep then some []
    else (upToChar sep rest).map (c :: ·)

/-- Split on every occurrence of a single-character separator
(JavaScript `String.prototype.split` with a one-character argument). -/
def splitChar (sep : Char) : List Char → List (List Char)
  | [] => [[]]
  | c :: rest =>
    if c = sep then [] :: splitChar sep rest
    else match splitChar sep rest with
      | [] => [[c]]
      | p :: ps => (c :: p) :: ps

/-- Trim JavaScript whitespace from both ends. -/
def trimL (cs : List Char) : List Char :=
  ((cs.dropWhile isWS).reverse.dropWhile isWS).reverse

/-- ASCII upper-casing of one character (`String.prototype.toUpperCase`
restricted to the ASCII payload alphabet). -/
def charUpper (c : Char) : Char :=
  if 97 ≤ c.toNat && c.toNat ≤ 122 then Char.ofNat (c.toNat - 32) else c

/-- Numeric value of a list of decimal digit characters. -/
def natOfDigits (cs : List Char) : Nat :=
  cs.foldl (fun acc c => acc * 10 + (c.toNat - 48)) 0

end JSStr

open JSStr

/-- `String.prototype.includes`. -/
def sIncludes (hay needle : String) : Bool := containsL needle.data hay.data

/-- `String.prototype.startsWith`. -/
def sStartsWith (hay needle : String) : Bool := startsWithL needle.data hay.data

/-- `String.prototype.toUpperCase` (ASCII). -/
def sUpper (s : String) : String := String.mk (s.data.map charUpper)

/-- `String.prototype.trim`. -/
def sTrim (s : String) : String := String.mk (trimL s.data)

/-- `String.prototype.substring(a, b)` (indices clamp to the length). -/
def sSubstring (s : String) (a b : Nat) : String :=
  String.mk ((s.data.drop a).take (b - a))

/-- `String.prototype.substring(a)` to the end of the string. -/
def sSubstringFrom (s : String) (a : Nat) : String := String.mk (s.data.drop a)

/-- JavaScript string length (code units; the payloads here are ASCII). -/
def sLength (s : String) : Nat := s.data.length

/-- A JavaScript number as produced by `parseFloat`: NaN, a signed
infinity, or an exact value.  Exactly representable decimal literals are
modelled by the rational they denote. -/
inductive JSNum where
  | nan : JSNum
  | inf (positive : Bool) : JSNum
  | val (q : ℚ) : JSNum
deriving DecidableEq, Repr

/-- Division of a `parseFloat` result by the literal 100
(`parseFloat(x) / 100` in the FIS extractor). -/
def JSNum.div100 : JSNum → JSNum
  | .nan => .nan
  | .inf p => .inf p
  | .val q => .val (q / 100)

/-- `parseFloat`: skip leading whitespace, optional sign, then the longest
prefix that is `Infinity` or a decimal literal `digits[.digits][e[±]digits]`;
NaN when no digit is found.  (V8 float rounding is not modelled: the
amounts relevant here are exactly representable.) -/
def jsParseFloat (s : String) : JSNum :=
  let cs := s.data.dropWhile isWS
  let (neg, cs1) : Bool × List Char :=
    match cs with
    | '+' :: r => (false, r)
    | '-' :: r => (true, r)
    | _ => (false, cs)
  if startsWithL "Infinity".data cs1 then .inf (!neg)
  else
    let ip := cs1.takeWhile isDigit
    let rest1 := cs1.drop ip.length
    let fp : List Char :=
      match rest1 with
      | '.' :: r => r.takeWhile isDigit
      | _ => []
    let rest2 : List Char :=
      match rest1 with
      | '.' :: r => r.drop fp.length
      | _ => rest1
    if ip.isEmpty && fp.isEmpty then .nan
    else
      let mant : ℚ := (natOfDigits ip : ℚ) + (natOfDigits fp : ℚ) / (10 ^ fp.length : ℚ)
      let expo : Option ℤ :=
        match rest2 with
        | 'e' :: '+' :: r => if (r.takeWhile isDigit).isEmpty then none else some (natOfDigits (r.takeWhile isDigit) : ℤ)
        | 'e' :: '-' :: r => if (r.takeWhile isDigit).isEmpty then none else some (-(natOfDigits (r.takeWhile isDigit) : ℤ))
        | 'e' :: r => if (r.takeWhile isDigit).isEmpty then none else some (natOfDigits (r.takeWhile isDigit) : ℤ)
        | 'E' :: '+' :: r => if (r.takeWhile isDigit).isEmpty then none else some (natOfDigits (r.takeWhile isDigit) : ℤ)
        | 'E' :: '-' :: r => if (r.takeWhile isDigit).isEmpty then none else some (-(natOfDigits (r.takeWhile isDigit) : ℤ))
        | 'E' :: r => if (r.takeWhile isDigit).isEmpty then none else some (natOfDigits (r.takeWhile isDigit) : ℤ)
        | _ => none
      let base : ℚ := if neg then -mant else mant
      match expo with
      | none => .val base
      | some e => .val (base * (10 : ℚ) ^ e)

namespace JSDate

/-- Gregorian leap-year rule. -/
def isLeap (y : Nat) : Bool := y % 4 = 0 && (y % 100 ≠ 0 || y % 400 = 0)

/-- Number of days of month `m` (1-based) of year `y`. -/
def daysInMonth (y m : Nat) : Nat :=
  if m = 2 then (if isLeap y then 29 else 28)
  else if m = 4 || m = 6 || m = 9 || m = 11 then 30
  else 31

/-- Push an over-long day count forward over month boundaries
(`d ≥ 1`, bounded by `fuel`). -/
def rollDays : Nat → Nat → Nat → Nat → (Nat × Nat × Nat)
  | 0, y, m, d => (y, m, d)
  | fuel + 1, y, m, d =>
    if d ≤ daysInMonth y m then (y, m, d)
    else rollDays fuel (if m = 12 then y + 1 else y) (if m = 12 then 1 else m + 1)
      (d - daysInMonth y m)

/-- Zero-padded 2-digit decimal rendering. -/
def pad2 (n : Nat) : String := if n < 10 then "0" ++ toString n else toString n

/-- The civil date `new Date(Date.UTC(year, mmRaw - 1, dd)).toISOString().split('T')[0]`
computes, rendered `YYYY-MM-DD`.  ECMAScript `MakeDay` first folds the
(0-based, possibly out-of-range) month into the year, then offsets `dd - 1`
days from the first of that month; here `year ≥ 2000`, `mmRaw, dd ≤ 99`. -/
def utcDateString (year mmRaw dd : Nat) : String :=
  let total := year * 12 + mmRaw - 1
  let y1 := total / 12
  let m1 := total % 12 + 1
  let (y2, m2, d2) :=
    if dd = 0 then
      (if m1 = 1 then (y1 - 1, 12, daysInMonth (y1 - 1) 12)
       else (y1, m1 - 1, daysInMonth y1 (m1 - 1)))
    else rollDays 8 y1 m1 dd
  toString y2 ++ "-" ++ pad2 m2 ++ "-" ++ pad2 d2

end JSDate

/-- A JSON value as produced by `JSON.parse`. -/
inductive JVal where
  | jnull : JVal
  | jbool (b : Bool) : JVal
  | jnum (q : ℚ) : JVal
  | jstr (s : String) : JVal
  | jarr (elems : List JVal) : JVal
  | jobj (fields : List (String × JVal)) : JVal
deriving Repr

namespace JSON

/-- JSON insignificant whitespace. -/
def jWS (c : Char) : Bool := c = ' ' || c = '\t' || c = '\n' || c = '\r'

/-- Read the body of a JSON string literal after the opening quote;
returns the decoded string and the input after the closing quote. -/
def parseStringBody : List Char → Option (String × List Char)
  | [] => none
  | '"' :: rest => some ("", rest)
  | '\\' :: e :: rest =>
    (match e with
     | '"' => some '"'
     | '\\' => some '\\'
     | '/' => some '/'
     | 'b' => some (Char.ofNat 8)
     | 'f' => some (Char.ofNat 12)
     | 'n' => some '\n'
     | 'r' => some '\r'
     | 't' => some '\t'
     | _ => none).bind fun c =>
      (parseStringBody rest).map fun (p : String × List Char) =>
        (String.mk (c :: p.1.data), p.2)
  | c :: rest =>
    if c.toNat < 32 then none
    else (parseStringBody rest).map fun (p : String × List Char) =>
      (String.mk (c :: p.1.data), p.2)

/-- Read a JSON number (strict JSON grammar: no leading zeros, mandatory
integer part) as an exact rational. -/
def parseNumber (cs : List Char) : Option (ℚ × List Char) :=
  let (neg, cs1) : Bool × List Char :=
    match cs with
    | '-' :: r => (true, r)
    | _ => (false, cs)
  let ip := cs1.takeWhile isDigit
  if ip.isEmpty then none
  else if ip.length > 1 && ip.headD '0' = '0' then none
  else
    let rest1 := cs1.drop ip.length
    let fp : List Char :=
      match rest1 with
      | '.' :: r => r.takeWhile isDigit
      | _ => []
    let okFrac : Bool :=
      match rest1 with
      | '.' :: _ => !fp.isEmpty
      | _ => true
    let rest2 : List Char :=
      match rest1 with
      | '.' :: r => r.drop fp.length
      | _ => rest1
    if !okFrac then none
    else
      let (expSign, expDigits, rest3) : Bool × List Char × List Char :=
        match rest2 with
        | 'e' :: '+' :: r => (false, r.takeWhile isDigit, (r.dropWhile isDigit))
        | 'e' :: '-' :: r => (true, r.takeWhile isDigit, (r.dropWhile isDigit))
        | 'e' :: r => (false, r.takeWhile isDigit, (r.dropWhile isDigit))
        | 'E' :: '+' :: r => (false, r.takeWhile isDigit, (r.dropWhile isDigit))
        | 'E' :: '-' :: r => (true, r.takeWhile isDigit, (r.dropWhile isDigit))
        | 'E' :: r => (false, r.takeWhile isDigit, (r.dropWhile isDigit))
        | _ => (false, [], rest2)
      let hasExpMarker : Bool :=
        match rest2 with
        | 'e' :: _ => true
        | 'E' :: _ => true
        | _ => false
      if hasExpMarker && expDigits.isEmpty then none
      else
        let mant : ℚ := (natOfDigits ip : ℚ) + (natOfDigits fp : ℚ) / (10 ^ fp.length : ℚ)
        let signed : ℚ := if neg then -mant else mant
        let e : ℤ := if expSign then -(natOfDigits expDigits : ℤ) else (natOfDigits expDigits : ℤ)
        some (signed * (10 : ℚ) ^ e, rest3)

mutual

/-- Parse one JSON value, returning it and the remaining input. -/
def parseVal : Nat → List Char → Option (JVal × List Char)
  | 0, _ => none
  | _ + 1, [] => none
  | fuel + 1, c :: rest =>
    if jWS c then parseVal (fuel + 1) rest
    else if c = '"' then (parseStringBody rest).map fun (s, r) => (.jstr s, r)
    else if c = '{' then
      match rest.dropWhile jWS with
      | '}' :: r2 => some (.jobj [], r2)
      | r2 => (parseMembers fuel r2).map fun (fs, r) => (.jobj fs, r)
    else if c = '[' then
      match rest.dropWhile jWS with
      | ']' :: r2 => some (.jarr [], r2)
      | r2 => (parseElems fuel r2).map fun (es, r) => (.jarr es, r)
    else if startsWithL "true".data (c :: rest) then some (.jbool true, rest.drop 3)
    else if startsWithL "false".data (c :: rest) then some (.jbool false, rest.drop 4)
    else if startsWithL "null".data (c :: rest) then some (.jnull, rest.drop 3)
    else (parseNumber (c :: rest)).map fun (q, r) => (.jnum q, r)

/-- Parse a nonempty comma-separated list of object members, up to and
including the closing brace. -/
def parseMembers : Nat → List Char → Option (List (String × JVal) × List Char)
  | 0, _ => none
  | fuel + 1, cs =>
    match cs.dropWhile jWS with
    | '"' :: r =>
      (parseStringBody r).bind fun (k, r1) =>
        match r1.dropWhile jWS with
        | ':' :: r2 =>
          (parseVal fuel r2).bind fun (v, r3) =>
            match r3.dropWhile jWS with
            | ',' :: r4 => (parseMembers fuel r4).map fun (fs, r5) => ((k, v) :: fs, r5)
            | '}' :: r4 => some ([(k, v)], r4)
            | _ => none
        | _ => none
    | _ => none

/-- Parse a nonempty comma-separated list of array elements, up to and
including the closing bracket. -/
def parseElems : Nat → List Char → Option (List JVal × List Char)
  | 0, _ => none
  | fuel + 1, cs =>
    (parseVal fuel cs).bind fun (v, r) =>
      match r.dropWhile jWS with
      | ',' :: r2 => (parseElems fuel r2).map fun (es, r3) => (v :: es, r3)
      | ']' :: r2 => some ([v], r2)
      | _ => none

end

end JSON

/-- `JSON.parse` as a total function: `some` the parsed value, `none` when
a `SyntaxError` would be thrown. -/
def jsonParse (s : String) : Option JVal :=
  (JSON.parseVal (s.data.length + 1) s.data).bind fun (v, rest) =>
    if (rest.dropWhile JSON.jWS).isEmpty then some v else none

/-- Property access `v[k]` on a parsed JSON value: `some` when `v` is an
object carrying key `k` (last duplicate wins), otherwise `none`
(JavaScript `undefined`). -/
def jvField (v : JVal) (k : String) : Option JVal :=
  match v with
  | .jobj fs => (fs.reverse.find? (fun p => p.1 == k)).map (·.2)
  | _ => none

/-- JavaScript truthiness of a parsed JSON value. -/
def jvTruthy : JVal → Bool
  | .jnull => false
  | .jbool b => b
  | .jnum q => decide (q ≠ 0)
  | .jstr s => !(s == "")
  | .jarr _ => true
  | .jobj _ => true

/-- Truthiness of a possibly-`undefined` property. -/
def jvTruthyO : Option JVal → Bool
  | none => false
  | some v => jvTruthy v

/-- Association-list update used for JavaScript object assignment
`obj[key] = value` (a later assignment to a key overwrites an earlier
one). -/
def jsObjSet (fields : List (String × String)) (key value : String) :
    List (String × String) :=
  if fields.any (fun p => p.1 == key) then
    fields.map (fun p => if p.1 == key then (key, value) else p)
  else fields ++ [(key, value)]

/-- JavaScript object property read `obj[key]` (`none` = `undefined`). -/
def jsObjGet (fields : List (String × String)) (key : String) : Option String :=
  (fields.find? (fun p => p.1 == key)).map (·.2)

namespace SWIFTParser

/-- Field tags recognized for MT103 (keys of `SWIFT_FIELDS.MT103`). -/
def SWIFT_FIELDS_MT103 : List String :=
  ["20", "23B", "32A", "50K", "52A", "53A", "56A", "57A", "59", "70", "71A"]

/-- Field tags recognized for MT202 (keys of `SWIFT_FIELDS.MT202`). -/
def SWIFT_FIELDS_MT202 : List String :=
  ["20", "21", "32A", "52A", "53A", "56A", "57A", "58A", "72"]

/-- `SWIFT_FIELDS[messageType]` as the list of its keys (the semantic
field names are not consulted by any behavior verified here). -/
def fieldTags (messageType : String) : List String :=
  if messageType = "MT103" then SWIFT_FIELDS_MT103
  else if messageType = "MT202" then SWIFT_FIELDS_MT202
  else []

/-- `this.supportedMessageTypes`. -/
def supportedMessageTypes : List String := ["MT103", "MT202"]

/-- Errors thrown by the base SWIFT parser, one constructor per throw
site. -/
inductive SwiftErr where
  | invalidMessage : SwiftErr
  | missingAppHeader : SwiftErr
  | unsupportedType (t : String) : SwiftErr
  | missingTextBlock : SwiftErr
  | noValidFields : SwiftErr
  | missingField (tag messageType : String) : SwiftErr
  | invalidAmountFormat (content : String) : SwiftErr
deriving DecidableEq, Repr

/-- The `Error#message` string of each throw site. -/
def SwiftErr.message : SwiftErr → String
  | .invalidMessage => "Invalid message format: message must be a non-empty string"
  | .missingAppHeader => "Invalid SWIFT message format: missing application header"
  | .unsupportedType t => "Unsupported message type: " ++ t
  | .missingTextBlock => "Invalid SWIFT message format: missing text block"
  | .noValidFields => "No valid fields found in message"
  | .missingField tag mt => "Missing required field: " ++ tag ++ " for " ++ mt
  | .invalidAmountFormat c => "Invalid amount field format: " ++ c

/-- The first match of `/\{2:I(\d{3})/`: scan left to right for `{2:I`
followed by three digits, returning the digits. -/
def typeScan : List Char → Option String
  | [] => none
  | c :: rest =>
    match c :: rest with
    | '{' :: '2' :: ':' :: 'I' :: a :: b :: d :: _ =>
      if isDigit a && isDigit b && isDigit d then some (String.mk [a, b, d])
      else typeScan rest
    | _ => typeScan rest

/-- `extractMessageType`: read the 3-digit type from the `{2:I...}`
application header. -/
def extractMessageType (message : String) : Except SwiftErr String :=
  match typeScan message.data with
  | none => .error .missingAppHeader
  | some ds => .ok ("MT" ++ ds)

/-- The text of block 4: the first `/\{4:(.*?)\}/s` match, i.e. the
characters between the first `{4:` and the first `}` after it. -/
def textBlockOf (message : String) : Option (List Char) :=
  (afterFirst "\x7b4:".data message.data).bind (upToChar '}')

/-- Does a field-tag boundary `/:(\d{2}[A-Z]?):/` match at the head of the
list?  Returns the tag and the number of characters the boundary spans. -/
def tagAt : List Char → Option (String × Nat)
  | ':' :: a :: b :: rest =>
    if isDigit a && isDigit b then
      match rest with
      | ':' :: _ => some (String.mk [a, b], 4)
      | u :: ':' :: _ => if isUpper u then some (String.mk [a, b, u], 5) else none
      | _ => none
    else none
  | _ => none

/-- The suffix of the block starting at the first tag boundary. -/
def findTag : List Char → Option (List Char)
  | [] => none
  | c :: rest =>
    if (tagAt (c :: rest)).isSome then some (c :: rest) else findTag rest

/-- Split at the next tag boundary: the content before it (the lazy
`(.*?)(?=:\d{2}[A-Z]?:|$)` group) and the rest of the block from the
boundary on. -/
def takeUntilTag : List Char → (List Char × List Char)
  | [] => ([], [])
  | c :: rest =>
    if (tagAt (c :: rest)).isSome then ([], c :: rest)
    else
      let (content, rem) := takeUntilTag rest
      (c :: content, rem)

/-- All matches of the global field regex over the block, as
`(tag, trimmed content)` pairs in order of occurrence. -/
def scanFields : Nat → List Char → List (String × String)
  | 0, _ => []
  | fuel + 1, cs =>
    match findTag cs with
    | none => []
    | some suffix =>
      match tagAt suffix with
      | none => []
      | some (tag, len) =>
        let (content, rem) := takeUntilTag (suffix.drop len)
        (tag, String.mk (trimL content)) :: scanFields fuel rem

/-- `fields[tag] = …` assignment. -/
def setField (fields : List (String × String)) (tag content : String) :
    List (String × String) := jsObjSet fields tag content

/-- `fields[tag]` lookup. -/
def lookupField (fields : List (String × String)) (tag : String) : Option String :=
  jsObjGet fields tag

/-- Retain only tags present in the message type's field table, building
the `fields` object. -/
def buildFields (defs : List String) (found : List (String × String)) :
    List (String × String) :=
  found.foldl
    (fun acc kv => if defs.contains kv.1 then setField acc kv.1 kv.2 else acc) []

/-- `parseFields`: extract block 4 and split it on tag boundaries. -/
def parseFields (message : String) (messageType : String) :
    Except SwiftErr (List (String × String)) :=
  match textBlockOf message with
  | none => .error .missingTextBlock
  | some textBlock =>
    match scanFields (textBlock.length + 1) textBlock with
    | [] => .error .noValidFields
    | found => .ok (buildFields (fieldTags messageType) found)

/-- `getRequiredFields`. -/
def getRequiredFields (messageType : String) : List String :=
  if messageType = "MT103" then ["20", "32A", "50K", "59"]
  else if messageType = "MT202" then ["20", "32A", "52A", "58A"]
  else []

/-- `validateRequiredFields`: fail on the first required tag that is
absent. -/
def validateRequiredFields (fields : List (String × String))
    (messageType : String) : Except SwiftErr Unit :=
  match (getRequiredFields messageType).find?
      (fun tag => (lookupField fields tag).isNone) with
  | some tag => .error (.missingField tag messageType)
  | none => .ok ()

/-- Result of `parseAmountField`. -/
structure AmountData where
  valueDate : String
  currency : String
  amount : JSNum
deriving DecidableEq, Repr

/-- The anchored amount-field regex `/^(\d{6})([A-Z]{3})([\d,\.]+)$/` as
a positional test (each group has a fixed offset, so the match
decomposition is unique). -/
def matches32A (content : String) : Bool :=
  let cs := content.data
  let datePart := cs.take 6
  let currencyPart := (cs.drop 6).take 3
  let amountPart := cs.drop 9
  datePart.length = 6 && datePart.all isDigit
    && currencyPart.length = 3 && currencyPart.all isUpper
    && !amountPart.isEmpty
    && amountPart.all (fun c => isDigit c || c = ',' || c = '.')

/-- `parseAmountField`: match `/^(\d{6})([A-Z]{3})([\d,\.]+)$/`, promote
the 2-digit year by 2000, fold the (possibly out-of-range) month and day
through UTC calendar arithmetic, and parse the amount after stripping
commas. -/
def parseAmountField (content : String) : Except SwiftErr AmountData :=
  let cs := content.data
  let datePart := cs.take 6
  let currencyPart := (cs.drop 6).take 3
  let amountPart := cs.drop 9
  if matches32A content then
    let year := 2000 + natOfDigits (datePart.take 2)
    let month := natOfDigits ((datePart.drop 2).take 2)
    let day := natOfDigits (datePart.drop 4)
    .ok
      { valueDate := JSDate.utcDateString year month day
        currency := String.mk currencyPart
        amount := jsParseFloat (String.mk (amountPart.filter (· ≠ ','))) }
  else .error (.invalidAmountFormat content)

/-- Result of `parseCustomerInfo`: first line as account, second as name,
remaining lines joined as address (`''` collapses to `null`). -/
structure CustomerInfo where
  account : Option String
  name : Option String
  address : Option String
  raw : String
deriving DecidableEq, Repr

/-- `parseCustomerInfo` (`null` for absent or empty content). -/
def parseCustomerInfo (content : Option String) : Option CustomerInfo :=
  match content with
  | none => none
  | some c =>
    if c = "" then none
    else
      let lines := (splitChar '\n' c.data).map (fun l => String.mk (trimL l))
      let addr := String.intercalate ", " (lines.drop 2)
      some
        { account := match lines.headD "" with | "" => none | a => some a
          name := match lines.getD 1 "" with | "" => none | n => some n
          address := if addr = "" then none else some addr
          raw := c }

/-- The standardized message object (`id` and `timestamp`, a uuid and a
wall-clock reading, are omitted; JavaScript `undefined`/`null` field
values are both modelled as `none`). -/
structure SwiftRec where
  messageType : String
  transactionReference : Option String
  status : String
  originalFields : List (String × String)
  amount : Option JSNum
  currency : Option String
  valueDate : Option String
  sender : Option CustomerInfo
  receiver : Option CustomerInfo
  orderingInstitution : Option String
  beneficiaryInstitution : Option String
  remittanceInfo : Option String
  senderToReceiverInfo : Option String
deriving DecidableEq, Repr

/-- `createStandardizedMessage` (throws only from `parseAmountField`). -/
def createStandardizedMessage (fields : List (String × String))
    (messageType : String) : Except SwiftErr SwiftRec :=
  let base : SwiftRec :=
    { messageType := messageType
      transactionReference := lookupField fields "20"
      status := "parsed"
      originalFields := fields
      amount := none, currency := none, valueDate := none
      sender := none, receiver := none
      orderingInstitution := none, beneficiaryInstitution := none
      remittanceInfo := none, senderToReceiverInfo := none }
  let step1 : Except SwiftErr SwiftRec :=
    match lookupField fields "32A" with
    | none => .ok base
    | some content =>
      match parseAmountField content with
      | .error e => .error e
      | .ok a =>
        .ok { base with
          amount := some a.amount, currency := some a.currency
          valueDate := some a.valueDate }
  match step1 with
  | .error e => .error e
  | .ok msg =>
    if messageType = "MT103" then
      .ok { msg with
        sender := parseCustomerInfo (lookupField fields "50K")
        receiver := parseCustomerInfo (lookupField fields "59")
        orderingInstitution := lookupField fields "52A"
        beneficiaryInstitution := lookupField fields "57A"
        remittanceInfo := lookupField fields "70" }
    else if messageType = "MT202" then
      .ok { msg with
        orderingInstitution := lookupField fields "52A"
        beneficiaryInstitution := lookupField fields "58A"
        senderToReceiverInfo := lookupField fields "72" }
    else .ok msg

/-- `SWIFTParser.parse` on a string payload (`!rawMessage` rejects the
empty string; null/non-string arguments cannot reach it through the
façade). -/
def parse (rawMessage : String) : Except SwiftErr SwiftRec :=
  if rawMessage = "" then .error .invalidMessage
  else
    match extractMessageType rawMessage with
    | .error e => .error e
    | .ok messageType =>
      if !supportedMessageTypes.contains messageType then
        .error (.unsupportedType messageType)
      else
        match parseFields rawMessage messageType with
        | .error e => .error e
        | .ok fields =>
          match validateRequiredFields fields messageType with
          | .error e => .error e
          | .ok _ => createStandardizedMessage fields messageType

end SWIFTParser

/-- The prefix of the list strictly before the first occurrence of
`needle`; `none` when `needle` does not occur. -/
def beforeFirst (needle : List Char) : List Char → Option (List Char)
  | [] => if startsWithL needle [] then some [] else none
  | c :: rest =>
    if startsWithL needle (c :: rest) then some []
    else (beforeFirst needle rest).map (c :: ·)

namespace FISParser

/-- Record returned by `FISParser.parseFixedWidth` (uuid/timestamp
metadata omitted). -/
structure FISFixedRec where
  messageType : String
  recordType : String
  transactionId : String
  accountNumber : String
  amount : JSNum
  currency : String
  valueDate : String
  transactionType : String
  description : String
  customerName : String
  branchCode : String
deriving DecidableEq, Repr

/-- `FISParser.parseFixedWidth`: enforce the 100-character minimum, slice
fields at fixed offsets, and convert the cents amount by dividing the
`parseFloat` result by 100. -/
def parseFixedWidth (m : String) : Except String FISFixedRec :=
  if sLength m < 100 then
    .error "FIS fixed width parsing failed: Invalid FIS fixed width: message too short"
  else
    .ok
      { messageType := "FIS_FIXED"
        recordType := sSubstring m 0 2
        transactionId := sTrim (sSubstring m 2 17)
        accountNumber := sTrim (sSubstring m 17 32)
        amount := (jsParseFloat (sTrim (sSubstring m 32 41))).div100
        currency := sTrim (sSubstring m 41 44)
        valueDate := sTrim (sSubstring m 44 52)
        transactionType := sTrim (sSubstring m 52 55)
        description := sTrim (sSubstring m 55 100)
        customerName := sTrim (sSubstring m 100 150)
        branchCode := sTrim (sSubstring m 150 154) }

/-- Record returned by `FISParser.parseJSON`. -/
structure FISJsonRec where
  messageType : String
  transactionId : JVal
  accountNumber : Option JVal
  amount : Option JVal
  currency : Option JVal
  valueDate : Option JVal
  transactionType : Option JVal
  description : Option JVal
  customerName : Option JVal
  branchCode : Option JVal
deriving Repr

/-- `FISParser.parseJSON`.  The exact `SyntaxError`/`TypeError` message
texts raised by `JSON.parse` on malformed input and by the property read
on a `null` root are not reproduced, only that those calls fail into the
same wrapping handler. -/
def parseJSON (m : String) : Except String FISJsonRec :=
  match jsonParse m with
  | none => .error "FIS JSON parsing failed: Unexpected token"
  | some (.jnull) => .error "FIS JSON parsing failed: Cannot read properties of null"
  | some data =>
    match jvField data "transactionId" with
    | some tid =>
      if jvTruthy tid then
        .ok
          { messageType := "FIS_JSON"
            transactionId := tid
            accountNumber := jvField data "accountNumber"
            amount := jvField data "amount"
            currency := jvField data "currency"
            valueDate := jvField data "valueDate"
            transactionType := jvField data "transactionType"
            description := jvField data "description"
            customerName := jvField data "customerName"
            branchCode := jvField data "branchCode" }
      else .error "FIS JSON parsing failed: Invalid FIS JSON: missing transactionId"
    | none => .error "FIS JSON parsing failed: Invalid FIS JSON: missing transactionId"

end FISParser

namespace TemenosParser

/-- Record returned by `TemenosParser.parseJSON`. -/
structure TemenosJsonRec where
  messageType : String
  header : JVal
  transaction : Option JVal
  debitAccount : Option JVal
  creditAccount : Option JVal
  narrative : Option JVal
deriving Repr

/-- `TemenosParser.parseJSON` (same caveat on `SyntaxError`/`TypeError`
message texts as for the FIS JSON extractor). -/
def parseJSON (m : String) : Except String TemenosJsonRec :=
  match jsonParse m with
  | none => .error "Temenos JSON parsing failed: Unexpected token"
  | some (.jnull) => .error "Temenos JSON parsing failed: Cannot read properties of null"
  | some data =>
    match jvField data "header" with
    | some h =>
      if jvTruthy h && jvTruthyO (jvField h "messageId") then
        .ok
          { messageType := "TEMENOS_JSON"
            header := h
            transaction := jvField data "transaction"
            debitAccount := jvField data "debitAccount"
            creditAccount := jvField data "creditAccount"
            narrative := jvField data "narrative" }
      else .error "Temenos JSON parsing failed: Invalid Temenos JSON: missing header or messageId"
    | none => .error "Temenos JSON parsing failed: Invalid Temenos JSON: missing header or messageId"

/-- `TemenosParser.parseXML` always fails: `xml2js`'s callback-style
`parseString` returns `undefined`, so the subsequent
`result.TemenosTransaction` read throws a `TypeError` that the handler
wraps (the exact `TypeError` text is not reproduced). -/
def parseXML (_m : String) : Except String Empty :=
  .error "Temenos XML parsing failed: Cannot read properties of undefined"

/-- One line of a T24 payload: when the line contains `=`, JavaScript
`const [key, value] = line.split('=')` binds the segments before the
first and between the first and second `=`. -/
def t24KV (line : List Char) : Option (String × String) :=
  if containsL ['='] line then
    match splitChar '=' line with
    | k :: v :: _ => some (String.mk (trimL k), String.mk (trimL v))
    | _ => none
  else none

/-- The flat key-to-value mapping `parseT24` builds from the payload's
lines. -/
def t24Fields (m : String) : List (String × String) :=
  (splitChar '\n' m.data).foldl
    (fun acc line =>
      match t24KV line with
      | some (k, v) => jsObjSet acc k v
      | none => acc) []

/-- Record returned by `TemenosParser.parseT24`. -/
structure T24Rec where
  messageType : String
  transactionReference : String
  amount : JSNum
  currency : Option String
  valueDate : Option String
  debitAccount : Option String
  creditAccount : Option String
  narrative : Option String
  customerNumber : Option String
  productCode : Option String
deriving DecidableEq, Repr

/-- `TemenosParser.parseT24`: build the key-value mapping and fail when
`fields['TXN.REF']` is falsy (absent, or bound to the empty string). -/
def parseT24 (m : String) : Except String T24Rec :=
  let fields := t24Fields m
  match jsObjGet fields "TXN.REF" with
  | none => .error "Temenos T24 parsing failed: Invalid Temenos T24: missing TXN.REF"
  | some tref =>
    if tref = "" then
      .error "Temenos T24 parsing failed: Invalid Temenos T24: missing TXN.REF"
    else
      .ok
        { messageType := "TEMENOS_T24"
          transactionReference := tref
          amount :=
            match jsObjGet fields "AMOUNT" with
            | none => .nan
            | some a => jsParseFloat a
          currency := jsObjGet fields "CURRENCY"
          valueDate := jsObjGet fields "VALUE.DATE"
          debitAccount := jsObjGet fields "DEBIT.ACCT"
          creditAccount := jsObjGet fields "CREDIT.ACCT"
          narrative := jsObjGet fields "NARRATIVE"
          customerNumber := jsObjGet fields "CUSTOMER.NO"
          productCode := jsObjGet fields "PRODUCT.CODE" }

end TemenosParser

namespace BANCSParser

/-- Modelled from the spec: `BANCSParser.extractXMLField` is not among
these sources (only its call sites in `parseXML` are); §4.3 describes
BANCS XML extraction as shallow targeted pattern extraction per named
element, here the text between the first `<Field>` and the following
`</Field>`. -/
def extractXMLField (xml field : String) : Option String :=
  (afterFirst ("<" ++ field ++ ">").data xml.data).bind fun rest =>
    (beforeFirst ("</" ++ field ++ ">").data rest).map String.mk

/-- Record returned by `BANCSParser.parseXML`. -/
structure BancsXmlRec where
  messageType : String
  transactionId : Option String
  amount : JSNum
  currency : Option String
  debitAccount : Option String
  creditAccount : Option String
  description : Option String
deriving DecidableEq, Repr

/-- `BANCSParser.parseXML`: require a `<Transaction>` element, then pull
named elements (`parseFloat` of an absent amount is NaN). -/
def parseXML (m : String) : Except String BancsXmlRec :=
  if !sIncludes m "<Transaction>" then
    .error "BANCS XML parsing failed: Invalid BANCS XML: missing Transaction element"
  else
    .ok
      { messageType := "BANCS_XML"
        transactionId := extractXMLField m "TransactionID"
        amount :=
          match extractXMLField m "Amount" with
          | none => .nan
          | some a => jsParseFloat a
        currency := extractXMLField m "Currency"
        debitAccount := extractXMLField m "DebitAccount"
        creditAccount := extractXMLField m "CreditAccount"
        description := extractXMLField m "Description" }

/-- Record returned by `BANCSParser.parseJSON`. -/
structure BancsJsonRec where
  messageType : String
  transactionId : JVal
  accountNumber : Option JVal
  amount : Option JVal
  currency : Option JVal
  valueDate : Option JVal
  description : Option JVal
  customerName : Option JVal
  branchCode : Option JVal
deriving Repr

/-- `BANCSParser.parseJSON` (same caveat on `SyntaxError`/`TypeError`
message texts as for the FIS JSON extractor). -/
def parseJSON (m : String) : Except String BancsJsonRec :=
  match jsonParse m with
  | none => .error "BANCS JSON parsing failed: Unexpected token"
  | some (.jnull) => .error "BANCS JSON parsing failed: Cannot read properties of null"
  | some data =>
    match jvField data "transactionId" with
    | some tid =>
      if jvTruthy tid then
        .ok
          { messageType := "BANCS_JSON"
            transactionId := tid
            accountNumber := jvField data "accountNumber"
            amount := jvField data "amount"
            currency := jvField data "currency"
            valueDate := jvField data "valueDate"
            description := jvField data "description"
            customerName := jvField data "customerName"
            branchCode := jvField data "branchCode" }
      else .error "BANCS JSON parsing failed: Invalid BANCS JSON: missing transactionId"
    | none => .error "BANCS JSON parsing failed: Invalid BANCS JSON: missing transactionId"

/-- Record returned by `BANCSParser.parseFlat`. -/
structure BancsFlatRec where
  messageType : String
  transactionId : String
  accountNumber : String
  amount : JSNum
  currency : String
  valueDate : String
  description : String
deriving DecidableEq, Repr

/-- `BANCSParser.parseFlat`: enforce the 50-character minimum, then slice
at fixed offsets. -/
def parseFlat (m : String) : Except String BancsFlatRec :=
  if sLength m < 50 then
    .error "BANCS flat file parsing failed: Invalid BANCS flat file: message too short"
  else
    .ok
      { messageType := "BANCS_FLAT"
        transactionId := sTrim (sSubstring m 0 15)
        accountNumber := sTrim (sSubstring m 15 30)
        amount := jsParseFloat (sTrim (sSubstring m 30 42))
        currency := sTrim (sSubstring m 42 47)
        valueDate := sTrim (sSubstring m 47 55)
        description := sTrim (sSubstringFrom m 55) }

end BANCSParser

namespace FiservParser

/-- Record returned by `FiservParser.parseDNA`. -/
structure FiservRec where
  messageType : String
  transactionId : String
  accountNumber : Option JVal
  amount : Option JVal
  currency : Option JVal
  valueDate : Option JVal
  description : Option JVal
  customerName : Option JVal
  branchCode : Option JVal
deriving Repr

/-- `FiservParser.parseDNA`: the transaction id must be truthy and start
with `DNA` (a truthy non-string id makes `.startsWith` throw a
`TypeError` into the same wrapping handler; exact `SyntaxError`/
`TypeError` texts are not reproduced). -/
def parseDNA (m : String) : Except String FiservRec :=
  match jsonParse m with
  | none => .error "Fiserv DNA parsing failed: Unexpected token"
  | some (.jnull) => .error "Fiserv DNA parsing failed: Cannot read properties of null"
  | some data =>
    match jvField data "transactionId" with
    | some tid =>
      if jvTruthy tid then
        match tid with
        | .jstr s =>
          if sStartsWith s "DNA" then
            .ok
              { messageType := "FISERV_DNA"
                transactionId := s
                accountNumber := jvField data "accountNumber"
                amount := jvField data "amount"
                currency := jvField data "currency"
                valueDate := jvField data "valueDate"
                description := jvField data "description"
                customerName := jvField data "customerName"
                branchCode := jvField data "branchCode" }
          else .error "Fiserv DNA parsing failed: Invalid Fiserv DNA JSON: missing or invalid transactionId"
        | _ => .error "Fiserv DNA parsing failed: startsWith is not a function"
      else .error "Fiserv DNA parsing failed: Invalid Fiserv DNA JSON: missing or invalid transactionId"
    | none => .error "Fiserv DNA parsing failed: Invalid Fiserv DNA JSON: missing or invalid transactionId"

end FiservParser

namespace ISO20022Parser

/-- An ISO 20022 amount-with-currency pair. -/
structure ISOAmount where
  amount : ℚ
  currency : String
deriving DecidableEq, Repr

/-- Group header of the fixed pacs.008 result. -/
structure GroupHeader where
  messageId : String
  creationDateTime : String
  numberOfTransactions : ℚ
  totalInterbankSettlementAmount : ISOAmount
  interbankSettlementDate : String
  settlementMethod : String
deriving DecidableEq, Repr

/-- Payment identification triple. -/
structure PaymentIdentification where
  instructionId : String
  endToEndId : String
  transactionId : String
deriving DecidableEq, Repr

/-- Credit-transfer transaction block of the fixed pacs.008 result. -/
structure CreditTransferInfo where
  paymentIdentification : PaymentIdentification
  instructedAmount : ISOAmount
  chargeBearerCode : String
  debtorName : String
  debtorAccountIban : String
  debtorAgentBic : String
  creditorName : String
  creditorAccountIban : String
  creditorAgentBic : String
  remittanceUnstructured : String
deriving DecidableEq, Repr

/-- Record returned by `ISO20022Parser.parsePacs008`. -/
structure ISORec where
  messageType : String
  groupHeader : GroupHeader
  creditTransferTransactionInformation : CreditTransferInfo
deriving DecidableEq, Repr

/-- The constant record `parsePacs008` returns (the source's simplified
implementation does no real XML extraction). -/
def pacs008Record : ISORec :=
  { messageType := "pacs.008"
    groupHeader :=
      { messageId := "ISO123456789"
        creationDateTime := "2024-07-01T10:00:00Z"
        numberOfTransactions := 1
        totalInterbankSettlementAmount := { amount := 4500, currency := "EUR" }
        interbankSettlementDate := "2024-07-01"
        settlementMethod := "CLRG" }
    creditTransferTransactionInformation :=
      { paymentIdentification :=
          { instructionId := "INSTR001", endToEndId := "E2E001", transactionId := "TXN001" }
        instructedAmount := { amount := 4500, currency := "EUR" }
        chargeBearerCode := "SLEV"
        debtorName := "Sender Corporation"
        debtorAccountIban := "DE89123456789012345678"
        debtorAgentBic := "DEUTDEFF"
        creditorName := "Receiver Limited"
        creditorAccountIban := "FR1234567890123456789012"
        creditorAgentBic := "BNPAFRPP"
        remittanceUnstructured := "Invoice payment ISO20022" }
  }

/-- `ISO20022Parser.parsePacs008`: a namespace-substring presence check,
then the fixed record. -/
def parsePacs008 (m : String) : Except String ISORec :=
  if !sIncludes m "pacs.008" then
    .error "ISO 20022 pacs.008 parsing failed: Invalid ISO 20022: not a pacs.008 message"
  else .ok pacs008Record

end ISO20022Parser

/-- Modelled from the spec: `detectCOBOL` lives in the absent
`parsers/additional/cobol-stub.js` (only its importer is among these
sources); §4.1 lists its heuristics as line-number columns,
`IDENTIFICATION DIVISION`, `PROCEDURE DIVISION`, `PIC` clauses and `COPY`
statements, any match detecting COBOL. -/
def detectCOBOL (m : String) : Bool :=
  sIncludes m "IDENTIFICATION DIVISION" || sIncludes m "PROCEDURE DIVISION" ||
  sIncludes m "PIC " || sIncludes m "COPY " ||
  (splitChar '\n' m.data).any fun line =>
    (line.take 6).length = 6 && (line.take 6).all isDigit

/-- A JavaScript argument as the façade boundary sees it. -/
inductive JSIn where
  | jsNull : JSIn
  | jsUndefined : JSIn
  | jsNonString : JSIn
  | jsStr (s : String) : JSIn
deriving DecidableEq, Repr

namespace SwiftParserOSS

/-- Errors thrown out of `SwiftParserOSS.parse`, one constructor per
origin (`sub` carries a message already formatted by a sub-parser's
wrapping handler). -/
inductive PErr where
  | invalidNull : PErr
  | invalidNonString : PErr
  | invalidEmpty : PErr
  | unsupportedFormat : PErr
  | swift (e : SWIFTParser.SwiftErr) : PErr
  | sub (msg : String) : PErr
deriving DecidableEq, Repr

/-- The `Error#message` of a façade failure. -/
def PErr.message : PErr → String
  | .invalidNull => "Invalid input: message cannot be null or undefined"
  | .invalidNonString => "Invalid input: message must be a string"
  | .invalidEmpty => "Invalid input: message cannot be empty"
  | .unsupportedFormat => "Unsupported message format"
  | .swift e => e.message
  | .sub m => m

/-- The result record of a façade parse, tagged by the extractor that
produced it. -/
inductive FacadeRec where
  | swift (r : SWIFTParser.SwiftRec)
  | iso (r : ISO20022Parser.ISORec)
  | bancsJson (r : BANCSParser.BancsJsonRec)
  | bancsXml (r : BANCSParser.BancsXmlRec)
  | bancsFlat (r : BANCSParser.BancsFlatRec)
  | fisJson (r : FISParser.FISJsonRec)
  | fisFixed (r : FISParser.FISFixedRec)
  | fiservDna (r : FiservParser.FiservRec)
  | temenosJson (r : TemenosParser.TemenosJsonRec)
  | temenosT24 (r : TemenosParser.T24Rec)
deriving Repr

/-- The `messageType` field of a façade result. -/
def FacadeRec.msgType : FacadeRec → String
  | .swift r => r.messageType
  | .iso r => r.messageType
  | .bancsJson r => r.messageType
  | .bancsXml r => r.messageType
  | .bancsFlat r => r.messageType
  | .fisJson r => r.messageType
  | .fisFixed r => r.messageType
  | .fiservDna r => r.messageType
  | .temenosJson r => r.messageType
  | .temenosT24 r => r.messageType

/-- Modelled from the spec: `parseCOBOL` from the absent COBOL stub
always fails synchronously for non-null input with the fixed
enterprise-gating message (text pinned by the unit test suite). -/
def parseCOBOL (_m : String) : Except PErr FacadeRec :=
  .error (.sub "COBOL parsing requires SwiftParser Enterprise. Contact enterprise@gridworks.ai")

/-- Outcome of the ordered detection heuristics, before rendering as a
format-label string. -/
inductive DetectResult where
  | mt (digits : String) : DetectResult
  | iso20022 : DetectResult
  | bancsXml : DetectResult
  | fiservDna : DetectResult
  | fisJson : DetectResult
  | bancsJson : DetectResult
  | temenosJson : DetectResult
  | temenosXml : DetectResult
  | cobol : DetectResult
  | unknown : DetectResult
deriving DecidableEq, Repr

/-- The format label each detection outcome returns. -/
def DetectResult.label : DetectResult → String
  | .mt ds => "MT" ++ ds
  | .iso20022 => "ISO20022"
  | .bancsXml => "BANCS_XML"
  | .fiservDna => "FISERV_DNA"
  | .fisJson => "FIS_JSON"
  | .bancsJson => "BANCS_JSON"
  | .temenosJson => "TEMENOS_JSON"
  | .temenosXml => "TEMENOS_XML"
  | .cobol => "COBOL"
  | .unknown => "UNKNOWN"

/-- The Temenos arm of the JSON discriminator block:
`parsed.header && parsed.header.messageId && parsed.header.messageId.startsWith('TMN')`
(`none` both when the condition is falsy and when a truthy non-string
`messageId` makes `.startsWith` throw into the enclosing catch). -/
def headerCheck (v : JVal) : Option DetectResult :=
  match jvField v "header" with
  | some h =>
    if jvTruthy h then
      match jvField h "messageId" with
      | some (.jstr s) =>
        if s ≠ "" && sStartsWith s "TMN" then some .temenosJson else none
      | _ => none
    else none
  | none => none

/-- The JSON discriminator block of `detectFormat` applied to a parsed
value (`none` = fall out of the `try`, by normal completion or by a
caught `TypeError` from a property access on `null` or a `.startsWith`
call on a non-string). -/
def detectJsonLabel (v : JVal) : Option DetectResult :=
  match v with
  | .jnull => none
  | _ =>
    match jvField v "transactionId" with
    | some tid =>
      if jvTruthy tid then
        match tid with
        | .jstr s =>
          if sStartsWith s "DNA" then some .fiservDna
          else if sStartsWith s "TXN" then
            if jvTruthyO (jvField v "transactionType")
                && jvTruthyO (jvField v "branchCode") then some .fisJson
            else some .bancsJson
          else headerCheck v
        | _ => none
      else headerCheck v
    | none => headerCheck v

/-- The ordered detection heuristics of `SwiftParserOSS.detectFormat` on
a nonempty string payload. -/
def detectCore (m : String) : DetectResult :=
  match
    (if sIncludes m "\x7b1:" && sIncludes m "\x7b2:" && sIncludes m "\x7b4:" then
      SWIFTParser.typeScan m.data
    else none) with
  | some ds => .mt ds
  | none =>
    if sIncludes m "<?xml" && sIncludes m "urn:iso:std:iso:20022" then .iso20022
    else if sIncludes m "<Transaction>" || sIncludes m "TransactionID" then .bancsXml
    else
      match (jsonParse m).bind detectJsonLabel with
      | some r => r
      | none =>
        if sIncludes m "<TemenosTransaction>" then .temenosXml
        else if detectCOBOL m then .cobol
        else .unknown

/-- `detectFormat` on a string payload (`!message` rejects the empty
string). -/
def detectFormatStr (m : String) : String :=
  if m = "" then "UNKNOWN" else (detectCore m).label

/-- `SwiftParserOSS.detectFormat`: total over arbitrary arguments,
`UNKNOWN` for anything falsy or non-string. -/
def detectFormat (message : JSIn) : String :=
  match message with
  | .jsStr s => detectFormatStr s
  | _ => "UNKNOWN"

/-- Inject a sub-parser outcome into the façade's result/error types. -/
def wrapSub {α : Type} (inj : α → FacadeRec) :
    Except String α → Except PErr FacadeRec
  | .ok a => .ok (inj a)
  | .error e => .error (.sub e)

/-- The routing switch of `SwiftParserOSS.parse`: dispatch the (already
validated) string payload on the upper-cased resolved format label. -/
def dispatch (m : String) (detectedFormat : String) : Except PErr FacadeRec :=
  let formatUpper := sUpper detectedFormat
  if sStartsWith formatUpper "MT" then
    match SWIFTParser.parse m with
    | .ok r => .ok (.swift r)
    | .error e => .error (.swift e)
  else if formatUpper = "ISO20022" || formatUpper = "PACS.008" then
    wrapSub .iso (ISO20022Parser.parsePacs008 m)
  else if sIncludes formatUpper "BANCS" then
    if sIncludes formatUpper "JSON" then
      wrapSub .bancsJson (BANCSParser.parseJSON m)
    else if sIncludes formatUpper "XML" then
      wrapSub .bancsXml (BANCSParser.parseXML m)
    else wrapSub .bancsFlat (BANCSParser.parseFlat m)
  else if sIncludes formatUpper "FIS" then
    if sIncludes formatUpper "JSON" then
      wrapSub .fisJson (FISParser.parseJSON m)
    else wrapSub .fisFixed (FISParser.parseFixedWidth m)
  else if sIncludes formatUpper "FISERV" || sIncludes formatUpper "DNA" then
    wrapSub .fiservDna (FiservParser.parseDNA m)
  else if sIncludes formatUpper "TEMENOS" then
    if sIncludes formatUpper "JSON" then
      wrapSub .temenosJson (TemenosParser.parseJSON m)
    else if sIncludes formatUpper "XML" then
      match TemenosParser.parseXML m with
      | .ok x => x.elim
      | .error e => .error (.sub e)
    else wrapSub .temenosT24 (TemenosParser.parseT24 m)
  else if detectCOBOL m then parseCOBOL m
  else .error .unsupportedFormat

/-- The body of `SwiftParserOSS.parse` (the `try` block): input
validation, format resolution (hint, falling back to detection when the
hint is absent or falsy), and dispatch on the upper-cased label.  The
timing/timestamp metadata stamped on success is nondeterministic and
omitted. -/
def parseCore (message : JSIn) (format : Option String) :
    Except PErr FacadeRec :=
  match message with
  | .jsNull => .error .invalidNull
  | .jsUndefined => .error .invalidNull
  | .jsNonString => .error .invalidNonString
  | .jsStr m =>
    if sTrim m = "" then .error .invalidEmpty
    else
      dispatch m
        (match format with
         | some f => if f = "" then detectFormatStr m else f
         | none => detectFormatStr m)

/-- The metrics counters of a `SwiftParserOSS` instance. -/
structure Metrics where
  totalParsed : Nat
  successfulParses : Nat
  failedParses : Nat
deriving DecidableEq, Repr

/-- The counters as the constructor initializes them. -/
def initMetrics : Metrics :=
  { totalParsed := 0, successfulParses := 0, failedParses := 0 }

/-- `SwiftParserOSS.parse` with its metrics side effect:
`totalParsed` is incremented up front, then the `try` body runs and
exactly one of the success/failure counters is bumped.  (The early
`return parseCOBOL(message)` path, which would skip the success counter,
is unreachable for the validated string inputs that reach it, since
`parseCOBOL` always throws on them.) -/
def parseM (st : Metrics) (message : JSIn) (format : Option String) :
    Except PErr FacadeRec × Metrics :=
  let st1 := { st with totalParsed := st.totalParsed + 1 }
  match parseCore message format with
  | .ok r => (.ok r, { st1 with successfulParses := st1.successfulParses + 1 })
  | .error e => (.error e, { st1 with failedParses := st1.failedParses + 1 })

/-- `getMetrics`: the `{ ...this.metrics }` spread copy, i.e. a value
snapshot of the three counters. -/
def getMetrics (st : Metrics) : Metrics :=
  { totalParsed := st.totalParsed
    successfulParses := st.successfulParses
    failedParses := st.failedParses }

/-- `getSupportedFormats`. -/
def getSupportedFormats : List String :=
  ["MT103", "MT202", "MT515", "MT700", "MT798", "MT950", "MT101",
   "ISO20022", "BANCS_XML", "BANCS_JSON", "BANCS_FLAT",
   "FIS_FIXED", "FIS_JSON", "FIS_DELIMITED",
   "FISERV_DNA", "TEMENOS_JSON", "TEMENOS_XML", "TEMENOS_T24"]

/-- One slot of a `batchParse` result: a parsed record, or the
`{ error, originalMessage }` object capturing that element's failure. -/
inductive BatchSlot where
  | parsed (r : FacadeRec) : BatchSlot
  | failedSlot (error : String) (originalMessage : JSIn) : BatchSlot
deriving Repr

/-- `batchParse`: the sequential loop over the payloads, catching each
element's failure in its own slot.  (Each iteration calls `this.parse`,
whose metrics side effect does not influence any result value, so the
slots are computed from `parseCore` alone.) -/
def batchParse : List JSIn → List BatchSlot
  | [] => []
  | message :: rest =>
    (match parseCore message none with
     | .ok r => .parsed r
     | .error e => .failedSlot e.message message) :: batchParse rest

end SwiftParserOSS

/-- The shape of every label `detectFormat` can return: one of the fixed
labels, or `MT` followed by exactly three digits. -/
def isFormatLabelB (L : String) : Bool :=
  L ∈ ["ISO20022", "BANCS_XML", "FISERV_DNA", "FIS_JSON", "BANCS_JSON",
       "TEMENOS_JSON", "TEMENOS_XML", "COBOL", "UNKNOWN"] ||
  (match L.data with
   | 'M' :: 'T' :: rest => rest.length = 3 && rest.all isDigit
   | _ => false)

/-- A minimal well-formed MT103 payload whose field 32A carries the
spec's exemplar content `230701USD1000,00`. -/
def mt103Small : String :=
  "\x7b2:I103\x7d\x7b4:\n:20:REF\n:32A:230701USD1000,00\n:50K:A\n:59:B\n-\x7d"

/-- The record `SWIFTParser.parse` produces for `mt103Small`. -/
def mt103SmallRec : SWIFTParser.SwiftRec :=
  { messageType := "MT103"
    transactionReference := some "REF"
    status := "parsed"
    originalFields :=
      [("20", "REF"), ("32A", "230701USD1000,00"), ("50K", "A"), ("59", "B\n-")]
    amount := some (jsParseFloat "100000")
    currency := some "USD"
    valueDate := some "2023-07-01"
    sender := some { account := some "A", name := none, address := none, raw := "A" }
    receiver := some { account := some "B", name := some "-", address := none, raw := "B\n-" }
    orderingInstitution := none
    beneficiaryInstitution := none
    remittanceInfo := none
    senderToReceiverInfo := none }

/-- A payload the detector labels `ISO20022` and the pacs.008 extractor
accepts. -/
def isoSmall : String := "<?xml urn:iso:std:iso:20022 pacs.008"

/-- An MT103 payload with full envelope and all required tags whose 32A
content does not match the amount-field pattern. -/
def mt103BadAmount : String :=
  "\x7b2:I103\x7d\x7b4:\n:20:R\n:32A:BAD\n:50K:A\n:59:B\n-\x7d"

/-- A T24 payload whose `NARRATIVE` line contains two `=` characters. -/
def t24Sample : String := "TXN.REF=R1\nNARRATIVE=A=B"

/-- A 160-character fixed-width payload (every character `7`). -/
def fisLong : String := String.mk (List.replicate 160 '7')

/-! Supporting lemmas. -/

theorem createStd_ok_inv {fields : List (String × String)} {mt : String}
    {r : SWIFTParser.SwiftRec}
    (h : SWIFTParser.createStandardizedMessage fields mt = .ok r) :
    r.messageType = mt ∧ r.originalFields = fields := by
  unfold SWIFTParser.createStandardizedMessage at h
  cases h32 : SWIFTParser.lookupField fields "32A" with
  | none =>
    rw [h32] at h
    simp only [] at h
    split at h <;>
      first
      | (injection h with h; subst h; exact ⟨rfl, rfl⟩)
      | (split at h <;> (injection h with h; subst h; exact ⟨rfl, rfl⟩))
  | some c =>
    rw [h32] at h
    simp only [] at h
    cases hpa : SWIFTParser.parseAmountField c with
    | error e => rw [hpa] at h; simp only [] at h; cases h
    | ok a =>
      rw [hpa] at h
      simp only [] at h
      split at h <;>
        first
        | (injection h with h; subst h; exact ⟨rfl, rfl⟩)
        | (split at h <;> (injection h with h; subst h; exact ⟨rfl, rfl⟩))

theorem createStd_ok_amount {fields : List (String × String)} {mt c : String}
    {r : SWIFTParser.SwiftRec}
    (h : SWIFTParser.createStandardizedMessage fields mt = .ok r)
    (h32 : SWIFTParser.lookupField fields "32A" = some c) :
    ∃ a, SWIFTParser.parseAmountField c = .ok a ∧
      r.amount = some a.amount ∧ r.currency = some a.currency ∧
      r.valueDate = some a.valueDate := by
  unfold SWIFTParser.createStandardizedMessage at h
  rw [h32] at h
  simp only [] at h
  cases hpa : SWIFTParser.parseAmountField c with
  | error e => rw [hpa] at h; simp only [] at h; cases h
  | ok a =>
    rw [hpa] at h
    simp only [] at h
    refine ⟨a, rfl, ?_⟩
    split at h <;>
      first
      | (injection h with h; subst h; exact ⟨rfl, rfl, rfl⟩)
      | (split at h <;> (injection h with h; subst h; exact ⟨rfl, rfl, rfl⟩))

theorem createStd_error_inv {fields : List (String × String)} {mt c : String}
    (h32 : SWIFTParser.lookupField fields "32A" = some c)
    {e : SWIFTParser.SwiftErr}
    (hpa : SWIFTParser.parseAmountField c = .error e) :
    SWIFTParser.createStandardizedMessage fields mt = .error e := by
  unfold SWIFTParser.createStandardizedMessage
  rw [h32]
  simp only [hpa]

theorem createStd_isOk {fields : List (String × String)} {mt c : String}
    (h32 : SWIFTParser.lookupField fields "32A" = some c)
    {a : SWIFTParser.AmountData}
    (hpa : SWIFTParser.parseAmountField c = .ok a) :
    ∃ r, SWIFTParser.createStandardizedMessage fields mt = .ok r := by
  unfold SWIFTParser.createStandardizedMessage
  rw [h32]
  simp only [hpa]
  split
  · exact ⟨_, rfl⟩
  · split
    · exact ⟨_, rfl⟩
    · exact ⟨_, rfl⟩

theorem swiftParse_ok_inv {m : String} {r : SWIFTParser.SwiftRec}
    (h : SWIFTParser.parse m = .ok r) :
    m ≠ "" ∧ ∃ ds fields,
      SWIFTParser.typeScan m.data = some ds ∧
      SWIFTParser.supportedMessageTypes.contains ("MT" ++ ds) = true ∧
      SWIFTParser.parseFields m ("MT" ++ ds) = .ok fields ∧
      SWIFTParser.validateRequiredFields fields ("MT" ++ ds) = .ok () ∧
      SWIFTParser.createStandardizedMessage fields ("MT" ++ ds) = .ok r := by
  unfold SWIFTParser.parse at h
  split at h
  · cases h
  next hm =>
    unfold SWIFTParser.extractMessageType at h
    cases hts : SWIFTParser.typeScan m.data with
    | none => rw [hts] at h; simp only [] at h; cases h
    | some ds =>
      rw [hts] at h
      simp only [] at h
      split at h
      · cases h
      next hc =>
        cases hpf : SWIFTParser.parseFields m ("MT" ++ ds) with
        | error e => rw [hpf] at h; simp only [] at h; cases h
        | ok fields =>
          rw [hpf] at h
          simp only [] at h
          cases hv : SWIFTParser.validateRequiredFields fields ("MT" ++ ds) with
          | error e => rw [hv] at h; simp only [] at h; cases h
          | ok u =>
            rw [hv] at h
            simp only [] at h
            cases u
            exact ⟨hm, ds, fields, rfl, by simpa using hc, hpf, hv, h⟩

theorem swiftParse_stages {m ds : String} {fields : List (String × String)}
    (hm : m ≠ "")
    (hts : SWIFTParser.typeScan m.data = some ds)
    (hc : SWIFTParser.supportedMessageTypes.contains ("MT" ++ ds) = true)
    (hpf : SWIFTParser.parseFields m ("MT" ++ ds) = .ok fields)
    (hv : SWIFTParser.validateRequiredFields fields ("MT" ++ ds) = .ok ()) :
    SWIFTParser.parse m =
      SWIFTParser.createStandardizedMessage fields ("MT" ++ ds) := by
  unfold SWIFTParser.parse SWIFTParser.extractMessageType
  rw [if_neg hm, hts]
  simp only [hc, Bool.not_true, Bool.false_eq_true, if_false, hpf, hv]

theorem swiftParse_ok_messageType {m : String} {r : SWIFTParser.SwiftRec}
    (h : SWIFTParser.parse m = .ok r) :
    ∃ ds, SWIFTParser.typeScan m.data = some ds ∧ r.messageType = "MT" ++ ds ∧
      (r.messageType = "MT103" ∨ r.messageType = "MT202") := by
  obtain ⟨-, ds, fields, hts, hc, -, -, hcr⟩ := swiftParse_ok_inv h
  obtain ⟨hmt, -⟩ := createStd_ok_inv hcr
  refine ⟨ds, hts, hmt, ?_⟩
  rw [hmt]
  simpa [SWIFTParser.supportedMessageTypes] using hc

theorem rollDays_of_le {fuel y m d : Nat} (h : d ≤ JSDate.daysInMonth y m) :
    JSDate.rollDays (fuel + 1) y m d = (y, m, d) := by
  unfold JSDate.rollDays
  rw [if_pos h]

theorem utcDateString_valid {y mm dd : Nat} (hm1 : 1 ≤ mm) (hm2 : mm ≤ 12)
    (hd1 : 1 ≤ dd) (hd2 : dd ≤ JSDate.daysInMonth y mm) :
    JSDate.utcDateString y mm dd =
      toString y ++ "-" ++ JSDate.pad2 mm ++ "-" ++ JSDate.pad2 dd := by
  have h1 : (y * 12 + mm - 1) / 12 = y := by
    rw [show y * 12 + mm - 1 = 12 * y + (mm - 1) by omega,
      Nat.mul_add_div (by norm_num)]
    have h0 : (mm - 1) / 12 = 0 := Nat.div_eq_of_lt (by omega)
    omega
  have h2 : (y * 12 + mm - 1) % 12 = mm - 1 := by
    rw [show y * 12 + mm - 1 = 12 * y + (mm - 1) by omega, Nat.mul_add_mod]
    exact Nat.mod_eq_of_lt (by omega)
  unfold JSDate.utcDateString
  simp only [h1, h2]
  rw [show mm - 1 + 1 = mm by omega]
  rw [if_neg (by omega : ¬ dd = 0)]
  rw [show (8 : Nat) = 7 + 1 from rfl, rollDays_of_le hd2]

theorem parseAmountField_of_matches {c : String}
    (h : SWIFTParser.matches32A c = true) :
    SWIFTParser.parseAmountField c = .ok
      { valueDate :=
          JSDate.utcDateString (2000 + natOfDigits (c.data.take 2))
            (natOfDigits ((c.data.drop 2).take 2))
            (natOfDigits ((c.data.drop 4).take 2))
        currency := String.mk ((c.data.drop 6).take 3)
        amount := jsParseFloat (String.mk ((c.data.drop 9).filter (· ≠ ','))) } := by
  unfold SWIFTParser.parseAmountField
  rw [if_pos h]
  have e1 : (c.data.take 6).take 2 = c.data.take 2 := by
    rw [List.take_take]; norm_num
  have e2 : ((c.data.take 6).drop 2).take 2 = (c.data.drop 2).take 2 := by
    rw [List.drop_take, List.take_take]; norm_num
  have e3 : (c.data.take 6).drop 4 = (c.data.drop 4).take 2 := by
    rw [List.drop_take]
  rw [e1, e2, e3]

theorem parseAmountField_not_matches {c : String}
    (h : SWIFTParser.matches32A c = false) :
    SWIFTParser.parseAmountField c = .error (.invalidAmountFormat c) := by
  unfold SWIFTParser.parseAmountField
  rw [if_neg (by simp [h])]

theorem splitChar_cons (sep c : Char) (rest : List Char) :
    splitChar sep (c :: rest) =
      if c = sep then [] :: splitChar sep rest
      else
        match splitChar sep rest with
        | [] => [[c]]
        | p :: ps => (c :: p) :: ps := rfl

theorem splitChar_ne_nil (sep : Char) (cs : List Char) :
    splitChar sep cs ≠ [] := by
  cases cs with
  | nil => simp [splitChar]
  | cons c rest =>
    rw [splitChar_cons]
    split
    · simp
    · split <;> simp

theorem splitChar_headD (sep : Char) (cs : List Char) :
    (splitChar sep cs).headD [] = cs.takeWhile (· ≠ sep) := by
  induction cs with
  | nil => rfl
  | cons c rest ih =>
    rw [splitChar_cons]
    by_cases hc : c = sep
    · subst hc
      simp [List.takeWhile]
    · rw [if_neg hc]
      cases hs : splitChar sep rest with
      | nil => exact absurd hs (splitChar_ne_nil sep rest)
      | cons p ps =>
        rw [hs] at ih
        simp only [List.headD] at ih ⊢
        simp [List.takeWhile, hc, ih]

theorem splitChar_cons_of_contains {sep : Char} {cs : List Char}
    (h : containsL [sep] cs = true) :
    splitChar sep cs =
      cs.takeWhile (· ≠ sep) ::
        splitChar sep ((cs.dropWhile (· ≠ sep)).drop 1) := by
  induction cs with
  | nil => simp [containsL, startsWithL] at h
  | cons c rest ih =>
    rw [splitChar_cons]
    by_cases hc : c = sep
    · subst hc
      simp [List.takeWhile, List.dropWhile]
    · rw [if_neg hc]
      have hrest : containsL [sep] rest = true := by
        have h2 := h
        unfold containsL at h2
        simpa [startsWithL, Ne.symm hc, hc] using h2
      cases hs : splitChar sep rest with
      | nil => exact absurd hs (splitChar_ne_nil sep rest)
      | cons p ps =>
        rw [hs] at ih
        have ih2 := ih hrest
        simp only [List.takeWhile, List.dropWhile]
        simp only [ne_eq, hc, decide_not]
        injection ih2 with ihh iht
        rw [ihh, iht]
        simp [decide_not]


theorem t24KV_eq {line : List Char} (h : containsL ['='] line = true) :
    TemenosParser.t24KV line =
      some (String.mk (trimL (line.takeWhile (· ≠ '='))),
            String.mk (trimL
              (((line.dropWhile (· ≠ '=')).drop 1).takeWhile (· ≠ '=')))) := by
  unfold TemenosParser.t24KV
  rw [if_pos h, splitChar_cons_of_contains h]
  cases hs : splitChar '=' ((line.dropWhile (· ≠ '=')).drop 1) with
  | nil => exact absurd hs (splitChar_ne_nil _ _)
  | cons v vs =>
    have hv : v = ((line.dropWhile (· ≠ '=')).drop 1).takeWhile (· ≠ '=') := by
      have h2 := splitChar_headD '=' ((line.dropWhile (· ≠ '=')).drop 1)
      rw [hs] at h2
      simpa using h2
    subst hv
    rfl

theorem typeScan_shape {cs : List Char} {ds : String}
    (h : SWIFTParser.typeScan cs = some ds) :
    ∃ a b d, ds.data = [a, b, d] ∧ isDigit a = true ∧ isDigit b = true ∧
      isDigit d = true := by
  induction cs with
  | nil => simp [SWIFTParser.typeScan] at h
  | cons c rest ih =>
    unfold SWIFTParser.typeScan at h
    split at h
    next a b d tail heq =>
      split at h
      next hdig =>
        injection h with h
        subst h
        simp only [Bool.and_eq_true] at hdig
        exact ⟨a, b, d, rfl, hdig.1.1, hdig.1.2, hdig.2⟩
      next => exact ih h
    next => exact ih h

theorem sUpper_MT (ds : String) :
    sStartsWith (sUpper ("MT" ++ ds)) "MT" = true := by
  have hdata : ("MT" ++ ds).data = 'M' :: 'T' :: ds.data := by
    rw [String.data_append]
    rfl
  unfold sStartsWith sUpper
  rw [hdata]
  simp only [List.map]
  rw [show charUpper 'M' = 'M' from rfl, show charUpper 'T' = 'T' from rfl]
  simp [startsWithL]

theorem headerCheck_range {v : JVal} {r : SwiftParserOSS.DetectResult}
    (h : SwiftParserOSS.headerCheck v = some r) : r = .temenosJson := by
  simp only [SwiftParserOSS.headerCheck] at h
  iterate 8 (all_goals try split at h)
  all_goals first | (injection h with h; subst h; rfl) | injection h

theorem detectJsonLabel_range {v : JVal} {r : SwiftParserOSS.DetectResult}
    (h : SwiftParserOSS.detectJsonLabel v = some r) :
    r = .fiservDna ∨ r = .fisJson ∨ r = .bancsJson ∨ r = .temenosJson := by
  simp only [SwiftParserOSS.detectJsonLabel] at h
  iterate 8 (all_goals try split at h)
  all_goals try tauto
  all_goals
    first
    | (injection h with h; subst h; tauto)
    | injection h
    | (have hhc := headerCheck_range h; tauto)

theorem detectCore_mt {m ds : String}
    (h : SwiftParserOSS.detectCore m = .mt ds) :
    SWIFTParser.typeScan m.data = some ds := by
  unfold SwiftParserOSS.detectCore at h
  split at h
  next ds2 heq =>
    injection h with h
    subst h
    split at heq
    · exact heq
    · cases heq
  next heq =>
    exfalso
    split at h
    · cases h
    · split at h
      · cases h
      · split at h
        next r hbind =>
          obtain ⟨v, hv, hl⟩ := Option.bind_eq_some.mp hbind
          rcases detectJsonLabel_range hl with h2 | h2 | h2 | h2 <;>
            (subst h2; cases h)
        next =>
          split at h
          · cases h
          · split at h
            · cases h
            · cases h

theorem parsePacs008_ok_msgType {m : String} {r : ISO20022Parser.ISORec}
    (h : ISO20022Parser.parsePacs008 m = .ok r) :
    r.messageType = "pacs.008" := by
  simp only [ISO20022Parser.parsePacs008] at h
  iterate 4 (all_goals try split at h)
  all_goals first | (injection h with h; subst h; rfl) | injection h

theorem bancsParseJSON_ok_msgType {m : String} {r : BANCSParser.BancsJsonRec}
    (h : BANCSParser.parseJSON m = .ok r) : r.messageType = "BANCS_JSON" := by
  simp only [BANCSParser.parseJSON] at h
  iterate 8 (all_goals try split at h)
  all_goals first | (injection h with h; subst h; rfl) | injection h

theorem bancsParseXML_ok_msgType {m : String} {r : BANCSParser.BancsXmlRec}
    (h : BANCSParser.parseXML m = .ok r) : r.messageType = "BANCS_XML" := by
  simp only [BANCSParser.parseXML] at h
  iterate 4 (all_goals try split at h)
  all_goals first | (injection h with h; subst h; rfl) | injection h

theorem bancsParseFlat_ok_msgType {m : String} {r : BANCSParser.BancsFlatRec}
    (h : BANCSParser.parseFlat m = .ok r) : r.messageType = "BANCS_FLAT" := by
  simp only [BANCSParser.parseFlat] at h
  iterate 4 (all_goals try split at h)
  all_goals first | (injection h with h; subst h; rfl) | injection h

theorem fisParseJSON_ok_msgType {m : String} {r : FISParser.FISJsonRec}
    (h : FISParser.parseJSON m = .ok r) : r.messageType = "FIS_JSON" := by
  simp only [FISParser.parseJSON] at h
  iterate 8 (all_goals try split at h)
  all_goals first | (injection h with h; subst h; rfl) | injection h

theorem fisParseFixedWidth_ok_msgType {m : String} {r : FISParser.FISFixedRec}
    (h : FISParser.parseFixedWidth m = .ok r) : r.messageType = "FIS_FIXED" := by
  simp only [FISParser.parseFixedWidth] at h
  iterate 4 (all_goals try split at h)
  all_goals first | (injection h with h; subst h; rfl) | injection h

theorem fiservParseDNA_ok_msgType {m : String} {r : FiservParser.FiservRec}
    (h : FiservParser.parseDNA m = .ok r) : r.messageType = "FISERV_DNA" := by
  simp only [FiservParser.parseDNA] at h
  iterate 8 (all_goals try split at h)
  all_goals first | (injection h with h; subst h; rfl) | injection h

theorem temenosParseJSON_ok_msgType {m : String}
    {r : TemenosParser.TemenosJsonRec}
    (h : TemenosParser.parseJSON m = .ok r) : r.messageType = "TEMENOS_JSON" := by
  simp only [TemenosParser.parseJSON] at h
  iterate 8 (all_goals try split at h)
  all_goals first | (injection h with h; subst h; rfl) | injection h

theorem temenosParseT24_ok_msgType {m : String} {r : TemenosParser.T24Rec}
    (h : TemenosParser.parseT24 m = .ok r) : r.messageType = "TEMENOS_T24" := by
  simp only [TemenosParser.parseT24] at h
  iterate 6 (all_goals try split at h)
  all_goals first | (injection h with h; subst h; rfl) | injection h

theorem parseM_ok {st : SwiftParserOSS.Metrics} {msg : JSIn}
    {format : Option String} {r : SwiftParserOSS.FacadeRec}
    (hc : SwiftParserOSS.parseCore msg format = .ok r) :
    SwiftParserOSS.parseM st msg format =
      (.ok r,
       { totalParsed := st.totalParsed + 1
         successfulParses := st.successfulParses + 1
         failedParses := st.failedParses }) := by
  unfold SwiftParserOSS.parseM
  rw [hc]

theorem parseM_error {st : SwiftParserOSS.Metrics} {msg : JSIn}
    {format : Option String} {e : SwiftParserOSS.PErr}
    (hc : SwiftParserOSS.parseCore msg format = .error e) :
    SwiftParserOSS.parseM st msg format =
      (.error e,
       { totalParsed := st.totalParsed + 1
         successfulParses := st.successfulParses
         failedParses := st.failedParses + 1 }) := by
  unfold SwiftParserOSS.parseM
  rw [hc]

/-! Claim theorems. -/

/-- C4: `SwiftParserOSS.parse` fails with an invalid-input error for every
payload that is null, undefined, not a string, or empty after trimming
whitespace, uniformly in the format hint — so before any format detection
or extractor dispatch can influence the outcome. -/
theorem C4_invalid_input_rejected :
    ∀ format : Option String,
      SwiftParserOSS.parseCore .jsNull format = .error .invalidNull ∧
      SwiftParserOSS.parseCore .jsUndefined format = .error .invalidNull ∧
      SwiftParserOSS.parseCore .jsNonString format = .error .invalidNonString ∧
      ∀ s : String, sTrim s = "" →
        SwiftParserOSS.parseCore (.jsStr s) format = .error .invalidEmpty := by
  intro format
  refine ⟨rfl, rfl, rfl, ?_⟩
  intro s hs
  simp only [SwiftParserOSS.parseCore]
  rw [if_pos hs]

/-- C4 witness: the invalid-input rejections at concrete inputs (a null
payload with an explicit hint and a whitespace-only payload without). -/
theorem C4_witness :
    SwiftParserOSS.parseCore .jsNull (some "MT103") = .error .invalidNull ∧
    SwiftParserOSS.parseCore (.jsStr "   ") none = .error .invalidEmpty :=
  ⟨(C4_invalid_input_rejected (some "MT103")).1,
   (C4_invalid_input_rejected none).2.2.2 "   " (by decide)⟩

/-- C5: the metrics counters start at zero, every `parse` call increments
`totalParsed` by exactly one and exactly one of `successfulParses` (on
return) or `failedParses` (on throw) by exactly one, the invariant
`totalParsed = successfulParses + failedParses` is preserved, and
`getMetrics` returns a value snapshot equal to the current counters (the
`{ ...this.metrics }` spread makes it a copy, so caller-side mutation
cannot reach the internal object). -/
theorem C5_metrics_lifecycle :
    SwiftParserOSS.initMetrics.totalParsed = 0 ∧
    SwiftParserOSS.initMetrics.successfulParses = 0 ∧
    SwiftParserOSS.initMetrics.failedParses = 0 ∧
    (∀ (st : SwiftParserOSS.Metrics) (msg : JSIn) (format : Option String),
      (SwiftParserOSS.parseM st msg format).2.totalParsed = st.totalParsed + 1 ∧
      ((SwiftParserOSS.parseM st msg format).1.isOk = true →
        (SwiftParserOSS.parseM st msg format).2.successfulParses =
          st.successfulParses + 1 ∧
        (SwiftParserOSS.parseM st msg format).2.failedParses = st.failedParses) ∧
      ((SwiftParserOSS.parseM st msg format).1.isOk = false →
        (SwiftParserOSS.parseM st msg format).2.failedParses =
          st.failedParses + 1 ∧
        (SwiftParserOSS.parseM st msg format).2.successfulParses =
          st.successfulParses) ∧
      (st.totalParsed = st.successfulParses + st.failedParses →
        (SwiftParserOSS.parseM st msg format).2.totalParsed =
          (SwiftParserOSS.parseM st msg format).2.successfulParses +
            (SwiftParserOSS.parseM st msg format).2.failedParses)) ∧
    (∀ st : SwiftParserOSS.Metrics, SwiftParserOSS.getMetrics st = st) := by
  refine ⟨rfl, rfl, rfl, ?_, fun st => rfl⟩
  intro st msg format
  cases hc : SwiftParserOSS.parseCore msg format with
  | ok r =>
    rw [parseM_ok hc]
    refine ⟨rfl, fun _ => ⟨rfl, rfl⟩, ?_, ?_⟩
    · intro hbad
      simp [Except.isOk, Except.toBool] at hbad
    · intro hsum
      show st.totalParsed + 1 = st.successfulParses + 1 + st.failedParses
      omega
  | error e =>
    rw [parseM_error hc]
    refine ⟨rfl, ?_, fun _ => ⟨rfl, rfl⟩, ?_⟩
    · intro hbad
      simp [Except.isOk, Except.toBool] at hbad
    · intro hsum
      show st.totalParsed + 1 = st.successfulParses + (st.failedParses + 1)
      omega

/-- C5 witness: one failing call (null input) from the initial metrics:
the total and failure counters advance by one and the sum invariant
holds afterwards. -/
theorem C5_witness :
    (SwiftParserOSS.parseM SwiftParserOSS.initMetrics .jsNull none).2.totalParsed =
      SwiftParserOSS.initMetrics.totalParsed + 1 ∧
    (SwiftParserOSS.parseM SwiftParserOSS.initMetrics .jsNull none).2.failedParses =
      SwiftParserOSS.initMetrics.failedParses + 1 ∧
    (SwiftParserOSS.parseM SwiftParserOSS.initMetrics .jsNull none).2.totalParsed =
      (SwiftParserOSS.parseM SwiftParserOSS.initMetrics .jsNull none).2.successfulParses +
        (SwiftParserOSS.parseM SwiftParserOSS.initMetrics .jsNull none).2.failedParses := by
  obtain ⟨h1, -, h3, h4⟩ :=
    (C5_metrics_lifecycle).2.2.2.1 SwiftParserOSS.initMetrics .jsNull none
  exact ⟨h1, (h3 (by decide)).1, h4 (by decide)⟩

/-- C6: `batchParse` returns one slot per payload in input order; slot `i`
is the `parse` result of payload `i` when it succeeds and otherwise the
`{ error, originalMessage }` record of its failure, and one element's
failure never affects any other slot. -/
theorem C6_batchParse_pointwise :
    ∀ msgs : List JSIn,
      (SwiftParserOSS.batchParse msgs).length = msgs.length ∧
      ∀ i : Nat,
        (SwiftParserOSS.batchParse msgs).get? i =
          (msgs.get? i).map (fun p =>
            match SwiftParserOSS.parseCore p none with
            | .ok r => SwiftParserOSS.BatchSlot.parsed r
            | .error e => SwiftParserOSS.BatchSlot.failedSlot e.message p) := by
  intro msgs
  induction msgs with
  | nil => exact ⟨rfl, fun i => by cases i <;> rfl⟩
  | cons m rest ih =>
    refine ⟨?_, ?_⟩
    · simpa [SwiftParserOSS.batchParse] using ih.1
    · intro i
      cases i with
      | zero => rfl
      | succ n => simpa [SwiftParserOSS.batchParse] using ih.2 n

/-- C7: `detectFormat` is total — a plain function that returns `UNKNOWN`
for null, undefined, non-string and empty inputs (the `try` around
`JSON.parse` is modelled by the total `jsonParse`), and for every input
returns a well-formed format label (a fixed label or `MT` plus three
digits); it cannot throw. -/
theorem C7_detectFormat_total :
    SwiftParserOSS.detectFormat .jsNull = "UNKNOWN" ∧
    SwiftParserOSS.detectFormat .jsUndefined = "UNKNOWN" ∧
    SwiftParserOSS.detectFormat .jsNonString = "UNKNOWN" ∧
    SwiftParserOSS.detectFormat (.jsStr "") = "UNKNOWN" ∧
    ∀ v : JSIn, isFormatLabelB (SwiftParserOSS.detectFormat v) = true := by
  refine ⟨rfl, rfl, rfl, rfl, ?_⟩
  intro v
  cases v with
  | jsNull => rfl
  | jsUndefined => rfl
  | jsNonString => rfl
  | jsStr s =>
    show isFormatLabelB (SwiftParserOSS.detectFormatStr s) = true
    unfold SwiftParserOSS.detectFormatStr
    split
    · rfl
    · cases hd : SwiftParserOSS.detectCore s with
      | mt ds =>
        obtain ⟨a, b, d, hds, ha, hb, hdd⟩ := typeScan_shape (detectCore_mt hd)
        have hdata : ("MT" ++ ds).data = 'M' :: 'T' :: [a, b, d] := by
          rw [String.data_append, hds]
          rfl
        show isFormatLabelB ("MT" ++ ds) = true
        unfold isFormatLabelB
        rw [hdata]
        simp [ha, hb, hdd]
      | iso20022 => rfl
      | bancsXml => rfl
      | fiservDna => rfl
      | fisJson => rfl
      | bancsJson => rfl
      | temenosJson => rfl
      | temenosXml => rfl
      | cobol => rfl
      | unknown => rfl

/-- C8: the FIS fixed-width extractor fails with the length error on every
payload shorter than 100 characters, and on every payload of length at
least 100 returns a record whose amount is the `parseFloat` of the
characters at offsets 32–41 (trimmed) divided by 100. -/
theorem C8_fis_fixed_width :
    ∀ m : String,
      (sLength m < 100 →
        FISParser.parseFixedWidth m =
          .error "FIS fixed width parsing failed: Invalid FIS fixed width: message too short") ∧
      (100 ≤ sLength m →
        ∃ r, FISParser.parseFixedWidth m = .ok r ∧
          r.amount = (jsParseFloat (sTrim (sSubstring m 32 41))).div100) := by
  intro m
  constructor
  · intro hlt
    unfold FISParser.parseFixedWidth
    rw [if_pos hlt]
  · intro hge
    unfold FISParser.parseFixedWidth
    rw [if_neg (by omega)]
    exact ⟨_, rfl, rfl⟩

/-- C8 witness: a 2-character payload fails with the length error; a
160-character payload of `7`s parses with amount 7777777.77 (cents at
offsets 32–41 divided by 100). -/
theorem C8_witness :
    FISParser.parseFixedWidth "AB" =
      .error "FIS fixed width parsing failed: Invalid FIS fixed width: message too short" ∧
    ∃ r, FISParser.parseFixedWidth fisLong = .ok r ∧
      r.amount = JSNum.val ((777777777 : ℚ) / 100) := by
  refine ⟨(C8_fis_fixed_width "AB").1 (by decide), ?_⟩
  obtain ⟨r, hr, ha⟩ := (C8_fis_fixed_width fisLong).2 (by decide)
  refine ⟨r, hr, ha.trans ?_⟩
  have h1 : sTrim (sSubstring fisLong 32 41) = "777777777" := rfl
  rw [h1]
  have h2 : jsParseFloat "777777777" =
      JSNum.val ((natOfDigits "777777777".data : ℚ) + (0 : ℚ) / (10 ^ (0 : Nat) : ℚ)) := rfl
  rw [h2]
  show JSNum.val (((natOfDigits "777777777".data : ℚ) + (0 : ℚ) / (10 ^ (0 : Nat) : ℚ)) / 100) =
    JSNum.val ((777777777 : ℚ) / 100)
  have h3 : natOfDigits "777777777".data = 777777777 := rfl
  rw [h3]
  norm_num

theorem parseCore_none {m : String} (hm : sTrim m ≠ "") :
    SwiftParserOSS.parseCore (.jsStr m) none =
      SwiftParserOSS.dispatch m (SwiftParserOSS.detectFormatStr m) := by
  simp only [SwiftParserOSS.parseCore]
  rw [if_neg hm]

theorem parseCore_hint {m f : String} (hm : sTrim m ≠ "") (hf : f ≠ "") :
    SwiftParserOSS.parseCore (.jsStr m) (some f) =
      SwiftParserOSS.dispatch m f := by
  simp only [SwiftParserOSS.parseCore]
  rw [if_neg hm, if_neg hf]

theorem dispatch_mt_guard {m f : String}
    (hmt : sStartsWith (sUpper f) "MT" = true) :
    SwiftParserOSS.dispatch m f =
      match SWIFTParser.parse m with
      | .ok r => .ok (.swift r)
      | .error e => .error (.swift e) := by
  unfold SwiftParserOSS.dispatch
  rw [if_pos hmt]

theorem detectFormatStr_label {m : String} (hm : m ≠ "") :
    SwiftParserOSS.detectFormatStr m = (SwiftParserOSS.detectCore m).label := by
  unfold SwiftParserOSS.detectFormatStr
  rw [if_neg hm]

/-- C9 (amended): `parseT24` splits each line containing `=` on every
`=`; the key is the trimmed text before the first `=` and the value the
trimmed segment between the first and the second `=` (for one `=`, the
trimmed remainder) — so `NARRATIVE=A=B` maps `NARRATIVE` to `A` — and
parsing fails exactly when the built mapping gives `TXN.REF` no value or
the empty string (the source tests `!fields['TXN.REF']`, which is also
falsy for an empty value). -/
theorem C9_t24_amended :
    (∀ line : List Char, containsL ['='] line = true →
      TemenosParser.t24KV line =
        some (String.mk (trimL (line.takeWhile (· ≠ '='))),
              String.mk (trimL
                (((line.dropWhile (· ≠ '=')).drop 1).takeWhile (· ≠ '='))))) ∧
    (∀ m : String,
      (TemenosParser.parseT24 m).isOk = true ↔
        ∃ v, jsObjGet (TemenosParser.t24Fields m) "TXN.REF" = some v ∧ v ≠ "") := by
  refine ⟨fun line h => t24KV_eq h, ?_⟩
  intro m
  simp only [TemenosParser.parseT24]
  cases hg : jsObjGet (TemenosParser.t24Fields m) "TXN.REF" with
  | none => simp [Except.isOk, Except.toBool]
  | some v =>
    by_cases hv : v = ""
    · subst hv
      simp [Except.isOk, Except.toBool]
    · simp [hv, Except.isOk, Except.toBool]

/-- C9 counterexample: on `TXN.REF=R1\nNARRATIVE=A=B` the parsed
narrative is `A`, not the claimed entire remainder `A=B`. -/
theorem C9_counterexample :
    (TemenosParser.parseT24 t24Sample).map (fun r => r.narrative) =
      .ok (some "A") ∧ (some "A" : Option String) ≠ some "A=B" :=
  ⟨rfl, by decide⟩

/-- C9 witness: the key-value rule applied to the line `NARRATIVE=A=B`
and the success criterion applied to the sample payload. -/
theorem C9_witness :
    TemenosParser.t24KV "NARRATIVE=A=B".data = some ("NARRATIVE", "A") ∧
    (TemenosParser.parseT24 t24Sample).isOk = true := by
  constructor
  · exact ((C9_t24_amended).1 "NARRATIVE=A=B".data (by decide)).trans (by decide)
  · exact ((C9_t24_amended).2 t24Sample).mpr ⟨"R1", rfl, by decide⟩

/-- C10 (amended): every MT-prefixed effective label — hint or detected —
dispatches to the base SWIFT parser, which re-extracts the type from the
payload itself and accepts only MT103 and MT202; hence with a hint such
as `MT515` (listed by `getSupportedFormats`) the call throws for every
payload whose own embedded type is not 103/202 (in particular every
genuine MT515/700/798/950/101 payload), but can still return a record
when the payload itself is an MT103/MT202 message — the hint does not
make the extended types parseable. -/
theorem C10_mt_hint_dispatch :
    ∀ (m f : String), sTrim m ≠ "" → f ≠ "" →
      sStartsWith (sUpper f) "MT" = true →
      (SwiftParserOSS.parseCore (.jsStr m) (some f) =
        match SWIFTParser.parse m with
        | .ok r => .ok (.swift r)
        | .error e => .error (.swift e)) ∧
      (∀ r : SWIFTParser.SwiftRec, SWIFTParser.parse m = .ok r →
        r.messageType = "MT103" ∨ r.messageType = "MT202") := by
  intro m f hm hf hmt
  refine ⟨?_, ?_⟩
  · rw [parseCore_hint hm hf, dispatch_mt_guard hmt]
  · intro r hr
    obtain ⟨ds, -, -, hor⟩ := swiftParse_ok_messageType hr
    exact hor

/-- C10 counterexample: `MT515` is listed by `getSupportedFormats`, yet
`parse` with hint `MT515` on an MT103 payload returns a record — the
claim that such a hint always throws is false. -/
theorem C10_counterexample :
    "MT515" ∈ SwiftParserOSS.getSupportedFormats ∧
    (SwiftParserOSS.parseCore (.jsStr mt103Small) (some "MT515")).isOk = true :=
  ⟨by decide, rfl⟩

/-- C10 witness: the dispatch equation instantiated at the concrete MT103
payload with hint `MT515`, and the type restriction at its record. -/
theorem C10_witness :
    SwiftParserOSS.parseCore (.jsStr mt103Small) (some "MT515") =
      (match SWIFTParser.parse mt103Small with
       | .ok r => .ok (.swift r)
       | .error e => .error (.swift e)) ∧
    (mt103SmallRec.messageType = "MT103" ∨ mt103SmallRec.messageType = "MT202") := by
  have h := C10_mt_hint_dispatch mt103Small "MT515" (by decide) (by decide) (by decide)
  exact ⟨h.1, h.2 mt103SmallRec rfl⟩

/-- C3 (amended): the base SWIFT extractor's failures follow the source's
check order — missing `{2:I<3-digit>` application header first (an
invalid-format error); then unsupported embedded type (even when the
`{4:` block is also missing); then missing `{4:...}` text block (an
invalid-format error); then a no-valid-fields error when the block
contains no tag-shaped field at all; then a missing-field error at the
first absent required tag (MT103: 20, 32A, 50K, 59; MT202: 20, 32A, 52A,
58A); and a structurally complete message still fails with an
invalid-amount-format error when the 32A content does not match the
amount pattern — only otherwise is a record returned. -/
theorem C3_swift_error_cascade :
    ∀ m : String, m ≠ "" →
      (SWIFTParser.typeScan m.data = none →
        SWIFTParser.parse m = .error .missingAppHeader) ∧
      (∀ ds, SWIFTParser.typeScan m.data = some ds →
        SWIFTParser.supportedMessageTypes.contains ("MT" ++ ds) = false →
        SWIFTParser.parse m = .error (.unsupportedType ("MT" ++ ds))) ∧
      (∀ ds, SWIFTParser.typeScan m.data = some ds →
        SWIFTParser.supportedMessageTypes.contains ("MT" ++ ds) = true →
        SWIFTParser.textBlockOf m = none →
        SWIFTParser.parse m = .error .missingTextBlock) ∧
      (∀ ds tb, SWIFTParser.typeScan m.data = some ds →
        SWIFTParser.supportedMessageTypes.contains ("MT" ++ ds) = true →
        SWIFTParser.textBlockOf m = some tb →
        SWIFTParser.scanFields (tb.length + 1) tb = [] →
        SWIFTParser.parse m = .error .noValidFields) ∧
      (∀ ds fields tag, SWIFTParser.typeScan m.data = some ds →
        SWIFTParser.supportedMessageTypes.contains ("MT" ++ ds) = true →
        SWIFTParser.parseFields m ("MT" ++ ds) = .ok fields →
        (SWIFTParser.getRequiredFields ("MT" ++ ds)).find?
          (fun t => (SWIFTParser.lookupField fields t).isNone) = some tag →
        SWIFTParser.parse m = .error (.missingField tag ("MT" ++ ds))) ∧
      (∀ ds fields c, SWIFTParser.typeScan m.data = some ds →
        SWIFTParser.supportedMessageTypes.contains ("MT" ++ ds) = true →
        SWIFTParser.parseFields m ("MT" ++ ds) = .ok fields →
        SWIFTParser.validateRequiredFields fields ("MT" ++ ds) = .ok () →
        SWIFTParser.lookupField fields "32A" = some c →
        SWIFTParser.matches32A c = false →
        SWIFTParser.parse m = .error (.invalidAmountFormat c)) ∧
      (∀ ds fields c, SWIFTParser.typeScan m.data = some ds →
        SWIFTParser.supportedMessageTypes.contains ("MT" ++ ds) = true →
        SWIFTParser.parseFields m ("MT" ++ ds) = .ok fields →
        SWIFTParser.validateRequiredFields fields ("MT" ++ ds) = .ok () →
        SWIFTParser.lookupField fields "32A" = some c →
        SWIFTParser.matches32A c = true →
        ∃ r, SWIFTParser.parse m = .ok r) := by
  intro m hm
  refine ⟨?_, ?_, ?_, ?_, ?_, ?_, ?_⟩
  · intro hts
    unfold SWIFTParser.parse SWIFTParser.extractMessageType
    rw [if_neg hm, hts]
  · intro ds hts hcf
    unfold SWIFTParser.parse SWIFTParser.extractMessageType
    rw [if_neg hm, hts]
    simp only [hcf, Bool.not_false, if_true]
  · intro ds hts hc htb
    unfold SWIFTParser.parse SWIFTParser.extractMessageType
    rw [if_neg hm, hts]
    simp only [hc, Bool.not_true, Bool.false_eq_true, if_false]
    unfold SWIFTParser.parseFields
    rw [htb]
  · intro ds tb hts hc htb hscan
    unfold SWIFTParser.parse SWIFTParser.extractMessageType
    rw [if_neg hm, hts]
    simp only [hc, Bool.not_true, Bool.false_eq_true, if_false]
    unfold SWIFTParser.parseFields
    rw [htb]
    simp only []
    rw [hscan]
  · intro ds fields tag hts hc hpf hfind
    unfold SWIFTParser.parse SWIFTParser.extractMessageType
    rw [if_neg hm, hts]
    simp only [hc, Bool.not_true, Bool.false_eq_true, if_false, hpf]
    unfold SWIFTParser.validateRequiredFields
    rw [hfind]
  · intro ds fields c hts hc hpf hv h32 hmc
    rw [swiftParse_stages hm hts hc hpf hv]
    exact createStd_error_inv h32 (parseAmountField_not_matches hmc)
  · intro ds fields c hts hc hpf hv h32 hmc
    rw [swiftParse_stages hm hts hc hpf hv]
    exact createStd_isOk h32 (parseAmountField_of_matches hmc)

/-- C3 counterexample: a payload with full envelope, supported type
MT103 and all four required tags present still fails (32A content `BAD`
gives the invalid-amount-format error), contradicting the claim's
"otherwise it returns a parsed record". -/
theorem C3_counterexample :
    SWIFTParser.extractMessageType mt103BadAmount = .ok "MT103" ∧
    (SWIFTParser.textBlockOf mt103BadAmount).isSome = true ∧
    (SWIFTParser.parseFields mt103BadAmount "MT103").map
      (fun fields => (SWIFTParser.getRequiredFields "MT103").all
        (fun t => (SWIFTParser.lookupField fields t).isSome)) = .ok true ∧
    SWIFTParser.parse mt103BadAmount = .error (.invalidAmountFormat "BAD") :=
  ⟨rfl, rfl, rfl, rfl⟩

/-- C3 witness: the cascade instantiated at concrete payloads — no
header, unsupported embedded type, and a fully well-formed MT103. -/
theorem C3_witness :
    SWIFTParser.parse "X" = .error .missingAppHeader ∧
    SWIFTParser.parse "\x7b2:I999\x7d" = .error (.unsupportedType "MT999") ∧
    (∃ r, SWIFTParser.parse mt103Small = .ok r) := by
  obtain ⟨h1, -⟩ := C3_swift_error_cascade "X" (by decide)
  obtain ⟨-, h2, -⟩ := C3_swift_error_cascade "\x7b2:I999\x7d" (by decide)
  obtain ⟨-, -, -, -, -, -, h7⟩ := C3_swift_error_cascade mt103Small (by decide)
  refine ⟨h1 rfl, h2 "999" rfl (by decide), ?_⟩
  exact h7 "103"
    [("20", "REF"), ("32A", "230701USD1000,00"), ("50K", "A"), ("59", "B\n-")]
    "230701USD1000,00" rfl (by decide) rfl rfl rfl (by decide)

theorem jsParseFloat_100000 : jsParseFloat "100000" = JSNum.val 100000 := by
  have h : jsParseFloat "100000" =
      JSNum.val ((natOfDigits "100000".data : ℚ) + (0 : ℚ) / ((10 : ℚ) ^ (0 : Nat))) := rfl
  rw [h, show natOfDigits "100000".data = 100000 from rfl]
  norm_num

/-- C2 (amended): whenever a payload parses as SWIFT, the record's
currency is the 3-letter code at offsets 6–9 of the 32A content, the
amount is the `parseFloat` of the digits/periods remainder with every
comma removed (so the exemplar content `230701USD1000,00` yields amount
100000, not 1000.00), and for a valid calendar date the value date is
`YYYY-MM-DD` with the 2-digit year promoted by 2000; when a structurally
complete message's 32A content does not match the
6-digit-date/3-letter-currency/numeric pattern, parsing fails with the
invalid-amount-format error. -/
theorem C2_amount_field :
    (∀ (m : String) (r : SWIFTParser.SwiftRec) (c : String),
      SWIFTParser.parse m = .ok r →
      SWIFTParser.lookupField r.originalFields "32A" = some c →
      SWIFTParser.matches32A c = true ∧
      r.currency = some (String.mk ((c.data.drop 6).take 3)) ∧
      r.amount = some (jsParseFloat (String.mk ((c.data.drop 9).filter (· ≠ ',')))) ∧
      (∀ yy mm dd : Nat,
        natOfDigits (c.data.take 2) = yy →
        natOfDigits ((c.data.drop 2).take 2) = mm →
        natOfDigits ((c.data.drop 4).take 2) = dd →
        1 ≤ mm → mm ≤ 12 → 1 ≤ dd →
        dd ≤ JSDate.daysInMonth (2000 + yy) mm →
        r.valueDate =
          some (toString (2000 + yy) ++ "-" ++ JSDate.pad2 mm ++ "-" ++
            JSDate.pad2 dd))) ∧
    (∀ (m ds : String) (fields : List (String × String)) (c : String),
      m ≠ "" →
      SWIFTParser.typeScan m.data = some ds →
      SWIFTParser.supportedMessageTypes.contains ("MT" ++ ds) = true →
      SWIFTParser.parseFields m ("MT" ++ ds) = .ok fields →
      SWIFTParser.validateRequiredFields fields ("MT" ++ ds) = .ok () →
      SWIFTParser.lookupField fields "32A" = some c →
      SWIFTParser.matches32A c = false →
      SWIFTParser.parse m = .error (.invalidAmountFormat c)) := by
  constructor
  · intro m r c hp h32
    obtain ⟨-, ds, fields, hts, hcon, hpf, hv, hcr⟩ := swiftParse_ok_inv hp
    obtain ⟨-, hof⟩ := createStd_ok_inv hcr
    rw [hof] at h32
    obtain ⟨a, hpa, ham, hcur, hvd⟩ := createStd_ok_amount hcr h32
    cases hmc : SWIFTParser.matches32A c with
    | false =>
      rw [parseAmountField_not_matches hmc] at hpa
      cases hpa
    | true =>
      have ha : a =
          { valueDate :=
              JSDate.utcDateString (2000 + natOfDigits (c.data.take 2))
                (natOfDigits ((c.data.drop 2).take 2))
                (natOfDigits ((c.data.drop 4).take 2))
            currency := String.mk ((c.data.drop 6).take 3)
            amount := jsParseFloat (String.mk ((c.data.drop 9).filter (· ≠ ','))) } := by
        have h0 := parseAmountField_of_matches hmc
        rw [h0] at hpa
        injection hpa with h1
        exact h1.symm
      refine ⟨rfl, ?_, ?_, ?_⟩
      · rw [hcur, ha]
      · rw [ham, ha]
      · intro yy mm dd hyy hmm hdd h1 h2 h3 h4
        rw [hvd, ha]
        show some (JSDate.utcDateString (2000 + natOfDigits (c.data.take 2))
          (natOfDigits ((c.data.drop 2).take 2))
          (natOfDigits ((c.data.drop 4).take 2))) = _
        rw [hyy, hmm, hdd, utcDateString_valid h1 h2 h3 h4]
  · intro m ds fields c hm hts hc hpf hv h32 hmc
    rw [swiftParse_stages hm hts hc hpf hv]
    exact createStd_error_inv h32 (parseAmountField_not_matches hmc)

/-- C2 counterexample: the claim's exemplar — 32A content
`230701USD1000,00` parses to amount 100000 (the comma is stripped and
the digits concatenated), not the claimed 1000.00. -/
theorem C2_counterexample :
    SWIFTParser.lookupField mt103SmallRec.originalFields "32A" =
      some "230701USD1000,00" ∧
    (SWIFTParser.parse mt103Small).map (fun r => r.amount) =
      .ok (some (JSNum.val 100000)) ∧
    JSNum.val (100000 : ℚ) ≠ JSNum.val (1000 : ℚ) := by
  refine ⟨rfl, ?_, ?_⟩
  · have h : (SWIFTParser.parse mt103Small).map (fun r => r.amount) =
        .ok (some (jsParseFloat "100000")) := rfl
    rw [h, jsParseFloat_100000]
  · intro heq
    injection heq with h1
    have h2 : (100000 : ℚ) = 1000 := h1
    norm_num at h2

/-- C2 witness: both directions at concrete payloads — `mt103Small`
(content `230701USD1000,00`: currency USD, amount the comma-stripped
`parseFloat`, value date 2023-07-01) and `mt103BadAmount` (content
`BAD`: the invalid-amount-format error). -/
theorem C2_witness :
    SWIFTParser.matches32A "230701USD1000,00" = true ∧
    mt103SmallRec.currency = some "USD" ∧
    mt103SmallRec.amount = some (jsParseFloat "100000") ∧
    mt103SmallRec.valueDate = some "2023-07-01" ∧
    SWIFTParser.parse mt103BadAmount = .error (.invalidAmountFormat "BAD") := by
  obtain ⟨h1, h2, h3, h4⟩ :=
    (C2_amount_field).1 mt103Small mt103SmallRec "230701USD1000,00" rfl rfl
  refine ⟨h1, h2.trans (by rfl), h3.trans (by rfl), ?_, ?_⟩
  · exact (h4 23 7 1 rfl rfl rfl (by norm_num) (by norm_num) (by norm_num)
      (by decide)).trans (by rfl)
  · exact (C2_amount_field).2 mt103BadAmount "103"
      [("20", "R"), ("32A", "BAD"), ("50K", "A"), ("59", "B\n-")] "BAD"
      (by decide) rfl (by decide) rfl rfl rfl (by decide)

/-- C1 (amended): for every auto-detected parse that succeeds, the
record's `messageType` equals the label the detector assigns to the same
payload — except that an `ISO20022`-detected payload parses to
`messageType` `pacs.008`, and a `FISERV_DNA`-detected payload is routed
(via the `includes('FIS')` branch matching `FISERV_DNA`) to the FIS
fixed-width extractor and parses to `messageType` `FIS_FIXED`. -/
theorem C1_detect_parse_consistency :
    ∀ (m : String) (r : SwiftParserOSS.FacadeRec),
      SwiftParserOSS.parseCore (.jsStr m) none = .ok r →
      r.msgType = SwiftParserOSS.detectFormat (.jsStr m) ∨
      (SwiftParserOSS.detectFormat (.jsStr m) = "ISO20022" ∧
        r.msgType = "pacs.008") ∨
      (SwiftParserOSS.detectFormat (.jsStr m) = "FISERV_DNA" ∧
        r.msgType = "FIS_FIXED") := by
  intro m r h
  by_cases htr : sTrim m = ""
  · rw [show SwiftParserOSS.parseCore (.jsStr m) none = .error .invalidEmpty from by
      simp only [SwiftParserOSS.parseCore]; rw [if_pos htr]] at h
    cases h
  have hm : m ≠ "" := by
    intro he
    exact htr (by rw [he]; rfl)
  rw [parseCore_none htr] at h
  have hdf : SwiftParserOSS.detectFormat (.jsStr m) =
      (SwiftParserOSS.detectCore m).label := detectFormatStr_label hm
  cases hd : SwiftParserOSS.detectCore m with
  | mt ds =>
    have hL : SwiftParserOSS.detectFormatStr m = "MT" ++ ds := by
      rw [detectFormatStr_label hm, hd]
      rfl
    rw [hL, dispatch_mt_guard (sUpper_MT ds)] at h
    cases hp : SWIFTParser.parse m with
    | error e => rw [hp] at h; cases h
    | ok sr =>
      rw [hp] at h
      injection h with h
      subst h
      obtain ⟨ds2, hts2, hmt2, -⟩ := swiftParse_ok_messageType hp
      have hts1 := detectCore_mt hd
      rw [hts1] at hts2
      injection hts2 with hds
      left
      rw [hdf, hd]
      show sr.messageType = ("MT" ++ ds : String)
      rw [hmt2, hds]
  | iso20022 =>
    have hL : SwiftParserOSS.detectFormatStr m = "ISO20022" := by
      rw [detectFormatStr_label hm, hd]
      rfl
    rw [hL, show SwiftParserOSS.dispatch m "ISO20022" =
      SwiftParserOSS.wrapSub .iso (ISO20022Parser.parsePacs008 m) from rfl] at h
    cases hp : ISO20022Parser.parsePacs008 m with
    | error e => rw [hp] at h; cases h
    | ok a =>
      rw [hp] at h
      injection h with h
      subst h
      right; left
      exact ⟨by rw [hdf, hd]; rfl, parsePacs008_ok_msgType hp⟩
  | bancsXml =>
    have hL : SwiftParserOSS.detectFormatStr m = "BANCS_XML" := by
      rw [detectFormatStr_label hm, hd]
      rfl
    rw [hL, show SwiftParserOSS.dispatch m "BANCS_XML" =
      SwiftParserOSS.wrapSub .bancsXml (BANCSParser.parseXML m) from rfl] at h
    cases hp : BANCSParser.parseXML m with
    | error e => rw [hp] at h; cases h
    | ok a =>
      rw [hp] at h
      injection h with h
      subst h
      left
      rw [hdf, hd]
      exact bancsParseXML_ok_msgType hp
  | fiservDna =>
    have hL : SwiftParserOSS.detectFormatStr m = "FISERV_DNA" := by
      rw [detectFormatStr_label hm, hd]
      rfl
    rw [hL, show SwiftParserOSS.dispatch m "FISERV_DNA" =
      SwiftParserOSS.wrapSub .fisFixed (FISParser.parseFixedWidth m) from rfl] at h
    cases hp : FISParser.parseFixedWidth m with
    | error e => rw [hp] at h; cases h
    | ok a =>
      rw [hp] at h
      injection h with h
      subst h
      right; right
      exact ⟨by rw [hdf, hd]; rfl, fisParseFixedWidth_ok_msgType hp⟩
  | fisJson =>
    have hL : SwiftParserOSS.detectFormatStr m = "FIS_JSON" := by
      rw [detectFormatStr_label hm, hd]
      rfl
    rw [hL, show SwiftParserOSS.dispatch m "FIS_JSON" =
      SwiftParserOSS.wrapSub .fisJson (FISParser.parseJSON m) from rfl] at h
    cases hp : FISParser.parseJSON m with
    | error e => rw [hp] at h; cases h
    | ok a =>
      rw [hp] at h
      injection h with h
      subst h
      left
      rw [hdf, hd]
      exact fisParseJSON_ok_msgType hp
  | bancsJson =>
    have hL : SwiftParserOSS.detectFormatStr m = "BANCS_JSON" := by
      rw [detectFormatStr_label hm, hd]
      rfl
    rw [hL, show SwiftParserOSS.dispatch m "BANCS_JSON" =
      SwiftParserOSS.wrapSub .bancsJson (BANCSParser.parseJSON m) from rfl] at h
    cases hp : BANCSParser.parseJSON m with
    | error e => rw [hp] at h; cases h
    | ok a =>
      rw [hp] at h
      injection h with h
      subst h
      left
      rw [hdf, hd]
      exact bancsParseJSON_ok_msgType hp
  | temenosJson =>
    have hL : SwiftParserOSS.detectFormatStr m = "TEMENOS_JSON" := by
      rw [detectFormatStr_label hm, hd]
      rfl
    rw [hL, show SwiftParserOSS.dispatch m "TEMENOS_JSON" =
      SwiftParserOSS.wrapSub .temenosJson (TemenosParser.parseJSON m) from rfl] at h
    cases hp : TemenosParser.parseJSON m with
    | error e => rw [hp] at h; cases h
    | ok a =>
      rw [hp] at h
      injection h with h
      subst h
      left
      rw [hdf, hd]
      exact temenosParseJSON_ok_msgType hp
  | temenosXml =>
    have hL : SwiftParserOSS.detectFormatStr m = "TEMENOS_XML" := by
      rw [detectFormatStr_label hm, hd]
      rfl
    rw [hL, show SwiftParserOSS.dispatch m "TEMENOS_XML" =
      .error (.sub "Temenos XML parsing failed: Cannot read properties of undefined")
      from rfl] at h
    cases h
  | cobol =>
    have hL : SwiftParserOSS.detectFormatStr m = "COBOL" := by
      rw [detectFormatStr_label hm, hd]
      rfl
    rw [hL, show SwiftParserOSS.dispatch m "COBOL" =
      (if detectCOBOL m then SwiftParserOSS.parseCOBOL m
       else .error .unsupportedFormat) from rfl] at h
    split at h
    · rw [show SwiftParserOSS.parseCOBOL m = .error
        (.sub "COBOL parsing requires SwiftParser Enterprise. Contact enterprise@gridworks.ai")
        from rfl] at h
      cases h
    · cases h
  | unknown =>
    have hL : SwiftParserOSS.detectFormatStr m = "UNKNOWN" := by
      rw [detectFormatStr_label hm, hd]
      rfl
    rw [hL, show SwiftParserOSS.dispatch m "UNKNOWN" =
      (if detectCOBOL m then SwiftParserOSS.parseCOBOL m
       else .error .unsupportedFormat) from rfl] at h
    split at h
    · rw [show SwiftParserOSS.parseCOBOL m = .error
        (.sub "COBOL parsing requires SwiftParser Enterprise. Contact enterprise@gridworks.ai")
        from rfl] at h
      cases h
    · cases h

/-- C1 counterexample: an auto-detected ISO 20022 payload parses
successfully to `messageType` `pacs.008` while the detector labels the
same payload `ISO20022` — the claimed equality fails. -/
theorem C1_counterexample :
    SwiftParserOSS.parseCore (.jsStr isoSmall) none =
      .ok (.iso ISO20022Parser.pacs008Record) ∧
    SwiftParserOSS.detectFormat (.jsStr isoSmall) = "ISO20022" ∧
    SwiftParserOSS.FacadeRec.msgType (.iso ISO20022Parser.pacs008Record) =
      "pacs.008" ∧
    ("pacs.008" : String) ≠ "ISO20022" :=
  ⟨rfl, rfl, rfl, by decide⟩

/-- C1 witness: the amended consistency statement applied at the concrete
ISO payload, whose hypotheses hold by computation. -/
theorem C1_witness :
    SwiftParserOSS.FacadeRec.msgType (.iso ISO20022Parser.pacs008Record) =
      SwiftParserOSS.detectFormat (.jsStr isoSmall) ∨
    (SwiftParserOSS.detectFormat (.jsStr isoSmall) = "ISO20022" ∧
      SwiftParserOSS.FacadeRec.msgType (.iso ISO20022Parser.pacs008Record) =
        "pacs.008") ∨
    (SwiftParserOSS.detectFormat (.jsStr isoSmall) = "FISERV_DNA" ∧
      SwiftParserOSS.FacadeRec.msgType (.iso ISO20022Parser.pacs008Record) =
        "FIS_FIXED") :=
  C1_detect_parse_consistency isoSmall (.iso ISO20022Parser.pacs008Record) rfl
